import Mathlib

/-!
Verification of the Castle Defenders real-time simulation
(`src/game/castle_defenders/game_state.py`, `game_data.py`,
`src/castle_defenders/player.py`, and the socket handlers in `src/app.py`).

Python floats are IEEE-754 binary64.  We model them exactly: every float
value is a rational, and every arithmetic operation rounds its exact
rational result to 53 bits with round-to-nearest, ties-to-even
(`roundNE`), matching binary64 in the normal range.  The exponent range
is unbounded in the model (no overflow/underflow/subnormals); all
quantities reached by this program are far inside the normal range, where
the model agrees with binary64 bit-for-bit.  `math.sqrt` is modelled by
`fsqrt`, the correctly rounded square root.  Python `int(x)` on a float
truncates toward zero (`pyInt`).  Comparisons between Python ints and
floats are exact, as are comparisons between floats, so they are plain
rational comparisons here.
-/

set_option allowUnsafeReducibility true
attribute [semireducible] Rat.mul Rat.add Rat.sub Rat.inv

namespace CD

/-- Fuel-driven binary logarithm: `log2fuel fuel n` is `⌊log2 n⌋` for
`1 ≤ n ≤ 2^fuel` (0 otherwise at fuel exhaustion).  Structural recursion
keeps it kernel-computable. -/
def log2fuel : ℕ → ℕ → ℕ
  | 0, _ => 0
  | fuel + 1, n => if 2 ≤ n then log2fuel fuel (n / 2) + 1 else 0

/-- `⌊log2 n⌋` for positive `n` (0 at 0). -/
def natLog2 (n : ℕ) : ℕ := log2fuel n n

/-- Fuel-driven ceiling binary logarithm. -/
def clog2fuel : ℕ → ℕ → ℕ
  | 0, _ => 0
  | fuel + 1, n => if 2 ≤ n then clog2fuel fuel ((n + 1) / 2) + 1 else 0

/-- `⌈log2 n⌉` for positive `n` (0 at 0 and 1). -/
def natClog2 (n : ℕ) : ℕ := clog2fuel n n

/-- `⌊log2 (p/d)⌋` for positive naturals `p`, `d`. -/
def fracLog2 (p d : ℕ) : ℤ :=
  if d ≤ p then (natLog2 (p / d) : ℤ) else -((natClog2 ((d + p - 1) / p)) : ℤ)

/-- Exact binary64 rounding of a rational: round to 53 significant bits,
nearest, ties to even.  Exponent range unbounded (see file header).  The
mantissa is extracted by integer division so that the whole computation
is kernel-computable; `mkRat` renormalizes the result. -/
def roundNE (q : ℚ) : ℚ :=
  let p := q.num.natAbs
  let d := q.den
  if p = 0 then 0
  else
    let e : ℤ := fracLog2 p d - 52
    let PD : ℕ × ℕ := if 0 ≤ e then (p, d * 2 ^ e.toNat) else (p * 2 ^ (-e).toNat, d)
    let fl := PD.1 / PD.2
    let r := PD.1 % PD.2
    let n : ℕ :=
      if 2 * r < PD.2 then fl
      else if PD.2 < 2 * r then fl + 1
      else if fl % 2 = 0 then fl else fl + 1
    let v : ℚ :=
      if 0 ≤ e then mkRat ((n : ℤ) * 2 ^ e.toNat) 1 else mkRat (n : ℤ) (2 ^ (-e).toNat)
    if q.num < 0 then -v else v

/-- Binary64 addition. -/
def fadd (x y : ℚ) : ℚ := roundNE (x + y)

/-- Binary64 subtraction. -/
def fsub (x y : ℚ) : ℚ := roundNE (x - y)

/-- Binary64 multiplication. -/
def fmul (x y : ℚ) : ℚ := roundNE (x * y)

/-- Binary64 division.  The zero-divisor case is unreachable in the
translated code (Python would raise `ZeroDivisionError`). -/
def fdiv (x y : ℚ) : ℚ := if y = 0 then 0 else roundNE (x / y)

/-- Fuel-driven Newton iteration for the integer square root (the core
`Nat.sqrt.iter` algorithm, structural on fuel). -/
def sqrtIter : ℕ → ℕ → ℕ → ℕ
  | 0, _, g => g
  | fuel + 1, n, g =>
    let next := (g + n / g) / 2
    if next < g then sqrtIter fuel n next else g

/-- `⌊√n⌋`, kernel-computable. -/
def natSqrt (n : ℕ) : ℕ := if n ≤ 1 then n else sqrtIter n n (n / 2 + 1)

/-- Correctly rounded binary64 square root of a nonnegative rational:
bracket `√v` into `[2^k, 2^(k+1))`, take the 53-bit mantissa by an
integer square root, and decide the final rounding by comparing squares
exactly.  `math.sqrt` of a negative argument raises in Python; the code
never calls it on a negative value (arguments are sums of squares). -/
def fsqrt (v : ℚ) : ℚ :=
  if v ≤ 0 then 0
  else
    let p := v.num.toNat
    let d := v.den
    let k : ℤ := Int.fdiv (fracLog2 p d) 2
    let t : ℤ := 52 - k
    let X : ℕ := if 0 ≤ t then p * 4 ^ t.toNat / d else p / (d * 4 ^ (-t).toNat)
    let m : ℕ := natSqrt X
    let t2 : ℤ := 53 - k
    let lhs : ℕ := if 0 ≤ t2 then (2 * m + 1) ^ 2 * d else (2 * m + 1) ^ 2 * d * 4 ^ (-t2).toNat
    let rhs : ℕ := if 0 ≤ t2 then p * 4 ^ t2.toNat else p
    let r : ℕ :=
      if lhs < rhs then m + 1
      else if rhs < lhs then m
      else if m % 2 = 0 then m else m + 1
    if 0 ≤ k - 52 then mkRat ((r : ℤ) * 2 ^ (k - 52).toNat) 1 else mkRat (r : ℤ) (2 ^ (52 - k).toNat)

/-- Python `int(x)` applied to a float: truncation toward zero. -/
def pyInt (q : ℚ) : ℤ := if q < 0 then -⌊-q⌋ else ⌊q⌋

/-- Python `min(a, b)`: returns `a` when equal. -/
def pyMin (a b : ℚ) : ℚ := if a ≤ b then a else b

/-- The binary64 value of the literal `0.15`. -/
def f015 : ℚ := 5404319552844595 / 36028797018963968

/-- The binary64 value of the literal `0.1`. -/
def f01 : ℚ := 3602879701896397 / 36028797018963968

/-- The binary64 value of the literal `0.2`. -/
def f02 : ℚ := 3602879701896397 / 18014398509481984

/-- The binary64 value of the literal `0.12`. -/
def f012 : ℚ := 1080863910568919 / 9007199254740992

/-- The binary64 value of the literal `0.25` (exact). -/
def f025 : ℚ := 1 / 4

/-- The binary64 value of the literal `0.08`. -/
def f008 : ℚ := 5764607523034235 / 72057594037927936

/-- The binary64 value of the literal `0.6`. -/
def f06 : ℚ := 5404319552844595 / 9007199254740992

/-- The binary64 value of the literal `0.7`. -/
def f07 : ℚ := 3152519739159347 / 4503599627370496

/-- The binary64 value of the literal `0.5` (exact). -/
def f05 : ℚ := 1 / 2

/-- The binary64 value of the literal `0.3`. -/
def f03 : ℚ := 5404319552844595 / 18014398509481984

/-- The binary64 value of the literal `0.8`. -/
def f08 : ℚ := 3602879701896397 / 4503599627370496

/-- The binary64 value of the literal `1.2`. -/
def f12 : ℚ := 5404319552844595 / 4503599627370496

/-- The binary64 value of the literal `1.5` (exactly representable). -/
def f15 : ℚ := 3 / 2

/-!
Catalog (`game_data.py`).  Dict entries with optional keys read through
`.get(key, default)` are modelled as structure fields with that default.
Keys that are only read for the archetypes that define them are ordinary
fields whose value is irrelevant (0) on the other archetypes.
-/

/-- One entry of `TOWER_TYPES` in `game_data.py`. -/
structure TowerDef where
  cost : ℤ
  damage : ℚ
  range : ℚ
  fireRate : ℚ
  unlockLevel : ℕ
  color : String
  splashRadius : ℚ := 0
  chainCount : ℕ := 1
  slowDuration : ℤ := 0
  stunDuration : ℤ := 0
  burnDamage : ℚ := 0
  burnDuration : ℤ := 0
  critChance : ℚ := 0
  critMultiplier : ℚ := 2
  troopCount : ℕ := 0
  troopHealth : ℚ := 0
  goldPerTick : ℤ := 0
  skeletonChance : ℚ := 0
  damageBoost : ℚ := 0
deriving DecidableEq

/-- `TOWER_TYPES` from `game_data.py` as a lookup (`dict.get`). -/
def TOWER_TYPES : String → Option TowerDef
  | "cannon" => some { cost := 100, damage := 25, range := 150, fireRate := 1000, unlockLevel := 1, color := "#8B4513" }
  | "archer" => some { cost := 75, damage := 12, range := 180, fireRate := 400, unlockLevel := 1, color := "#228B22" }
  | "mortar" => some { cost := 200, damage := 40, range := 200, fireRate := 2500, splashRadius := 60, unlockLevel := 3, color := "#4A4A4A" }
  | "wizard" => some { cost := 250, damage := 30, range := 140, fireRate := 1200, chainCount := 3, unlockLevel := 5, color := "#9932CC" }
  | "frost" => some { cost := 175, damage := 8, range := 130, fireRate := 800, slowDuration := 2000, unlockLevel := 4, color := "#00CED1" }
  | "barracks" => some { cost := 300, damage := 15, range := 100, fireRate := 1500, troopCount := 3, troopHealth := 50, unlockLevel := 6, color := "#B8860B" }
  | "goldmine" => some { cost := 400, damage := 0, range := 0, fireRate := 5000, goldPerTick := 8, unlockLevel := 2, color := "#FFD700" }
  | "tesla" => some { cost := 350, damage := 50, range := 120, fireRate := 1800, stunDuration := 500, unlockLevel := 8, color := "#00FFFF" }
  | "dragon" => some { cost := 500, damage := 35, range := 160, fireRate := 1000, burnDamage := 5, burnDuration := 3000, unlockLevel := 10, color := "#FF4500" }
  | "sniper" => some { cost := 275, damage := 100, range := 300, fireRate := 3000, critChance := f025, unlockLevel := 7, color := "#2F4F4F" }
  | "necromancer" => some { cost := 450, damage := 20, range := 150, fireRate := 2000, skeletonChance := f03, unlockLevel := 12, color := "#4B0082" }
  | "shrine" => some { cost := 350, damage := 0, range := 150, fireRate := 0, damageBoost := f02, unlockLevel := 9, color := "#FFE4B5" }
  | _ => none

/-- One entry of `ENEMY_TYPES` in `game_data.py`. -/
structure EnemyDef where
  health : ℤ
  speed : ℚ
  reward : ℤ
  color : String
  size : ℚ
  heals : Bool := false
  armor : ℚ := 0
  phasing : Bool := false
  enrages : Bool := false
deriving DecidableEq

/-- `ENEMY_TYPES` from `game_data.py` as a lookup (`dict.get`).  Speed
literals are the exact binary64 values of the Python float literals. -/
def ENEMY_TYPES : String → Option EnemyDef
  | "grunt" => some { health := 50, speed := 1, reward := 10, color := "#8B0000", size := 12 }
  | "runner" => some { health := 30, speed := 2, reward := 8, color := "#FF6347", size := 10 }
  | "tank" => some { health := 200, speed := f05, reward := 25, color := "#4A4A4A", size := 18 }
  | "healer" => some { health := 60, speed := f08, reward := 20, color := "#98FB98", size := 14, heals := true }
  | "shield" => some { health := 100, speed := f07, reward := 18, color := "#4169E1", size := 15, armor := f05 }
  | "boss" => some { health := 1000, speed := f03, reward := 200, color := "#8B008B", size := 30 }
  | "swarm" => some { health := 15, speed := 3/2, reward := 3, color := "#FFD700", size := 8 }
  | "ghost" => some { health := 80, speed := f12, reward := 30, color := "#E6E6FA", size := 12, phasing := true }
  | "berserker" => some { health := 120, speed := f06, reward := 35, color := "#DC143C", size := 16, enrages := true }
  | _ => none

/-- `xp_for_level` from `game_data.py`: `int(100 * (1.5 ** (level - 1)))`.
`1.5 ** n` is exact in binary64 for `n ≤ 33` (mantissa of `3^n` fits in
53 bits), which covers every level reachable in play; it is modelled
exactly as `(3/2)^n`. -/
def xpForLevel (level : ℕ) : ℤ := pyInt ((100 : ℚ) * (3/2 : ℚ) ^ (level - 1))

/-!
Entity model (`game_state.py` classes) and the per-player profile
(`player.py`).  The perk-to-stats derivation `CastlePlayer.get_stats` is
the external collaborator of the spec ("a stat-multiplier bundle the
simulation consumes as an opaque input"); the bundle itself is carried on
the profile.  Object identities produced by `uuid.uuid4()` are modelled
by a freshness counter `nextId` carried in the game state, and the shared
`random.random()` stream by an index `rngIndex` into an oracle
`rng : ℕ → ℚ` of uniform draws in `[0, 1)`.
-/

/-- The stat bundle produced by `CastlePlayer.get_stats` (`player.py`). -/
structure Stats where
  towerDamageMultiplier : ℚ := 1
  towerSpeedMultiplier : ℚ := 1
  towerRangeMultiplier : ℚ := 1
  startingGoldBonus : ℤ := 0
  waveBonusMultiplier : ℚ := 1
  killBonusMultiplier : ℚ := 1
  castleHealthBonus : ℤ := 0
  xpMultiplier : ℚ := 1
  critChanceBonus : ℚ := 0
  goldInterest : ℚ := 0
  towerCostMultiplier : ℚ := 1
  mineEfficiencyMultiplier : ℚ := 1
deriving DecidableEq

/-- Persistent profile fields of `CastlePlayer` (`player.py`) used by the
simulation, with its stat bundle attached. -/
structure CastlePlayer where
  name : String
  xp : ℤ := 0
  level : ℕ := 1
  perkPoints : ℕ := 0
  totalGamesPlayed : ℕ := 0
  totalWavesSurvived : ℕ := 0
  totalEnemiesKilled : ℕ := 0
  highestWave : ℕ := 0
  stats : Stats := {}
deriving DecidableEq

/-- Loop of `CastlePlayer.add_xp`: while `xp ≥ xp_for_level (level+1)`,
level up.  Structured on explicit fuel; each iteration removes at least
`xp_for_level 2 = 150` xp, so `xp.toNat + 1` iterations always suffice. -/
def addXpLoop : ℕ → ℤ → ℕ → ℕ → ℕ → ℤ × ℕ × ℕ × ℕ
  | 0, xp, level, pp, gained => (xp, level, pp, gained)
  | fuel + 1, xp, level, pp, gained =>
    if xpForLevel (level + 1) ≤ xp then
      addXpLoop fuel (xp - xpForLevel (level + 1)) (level + 1) (pp + 1) (gained + 1)
    else (xp, level, pp, gained)

/-- `CastlePlayer.add_xp` (`player.py`): add xp, consume level-up
thresholds, return the updated profile and the number of levels gained. -/
def CastlePlayer.addXp (p : CastlePlayer) (amount : ℤ) : CastlePlayer × ℕ :=
  let xp := p.xp + amount
  let r := addXpLoop (xp.toNat + 1) xp p.level p.perkPoints 0
  ({ p with xp := r.1, level := r.2.1, perkPoints := r.2.2.1 }, r.2.2.2)

/-- `GamePlayer` (`game_state.py`): per-session player state. -/
structure GamePlayer where
  id : String
  name : String
  gold : ℤ
  score : ℤ := 0
  enemiesKilled : ℕ := 0
  towersBuilt : ℕ := 0
  damageDealt : ℚ := 0
  profile : CastlePlayer
  stats : Stats
deriving DecidableEq

/-- `GamePlayer.__init__`: starting gold is `200 + startingGoldBonus`. -/
def mkGamePlayer (socketId : String) (profile : CastlePlayer) : GamePlayer :=
  { id := socketId, name := profile.name, gold := 200 + profile.stats.startingGoldBonus,
    profile := profile, stats := profile.stats }

/-- `Tower` (`game_state.py`). -/
structure Tower where
  id : ℕ
  type : String
  x : ℚ
  y : ℚ
  plotId : ℤ
  ownerId : String
  ownerName : String
  lastFired : ℤ := 0
  level : ℕ := 1
deriving DecidableEq

/-- `Enemy` (`game_state.py`).  Health is created as a Python int but
becomes a float after the first fractional damage; it is a rational
throughout here. -/
structure Enemy where
  id : ℕ
  type : String
  x : ℚ
  y : ℚ
  health : ℚ
  maxHealth : ℚ
  speed : ℚ
  reward : ℤ
  color : String
  size : ℚ
  pathIndex : ℕ := 0
  slowedUntil : ℤ := 0
  stunnedUntil : ℤ := 0
  burning : Bool := false
  burnDamage : ℚ := 0
  burnUntil : ℤ := 0
  armor : ℚ := 0
  heals : Bool := false
  phasing : Bool := false
  enrages : Bool := false
  enraged : Bool := false
deriving DecidableEq

/-- `Projectile` (`game_state.py`). -/
structure Projectile where
  id : ℕ
  x : ℚ
  y : ℚ
  targetId : ℕ
  damage : ℚ
  speed : ℚ
  type : String
  ownerId : String
  color : String
deriving DecidableEq

/-- `Troop` (`game_state.py`). -/
structure Troop where
  id : ℕ
  x : ℚ
  y : ℚ
  health : ℚ
  damage : ℚ
  ownerId : String
  type : String
deriving DecidableEq

/-- `Plot` (`game_state.py`): `tower` holds the placed tower id. -/
structure Plot where
  id : ℤ
  x : ℚ
  y : ℚ
  tower : Option ℕ := none
  owner : Option String := none
deriving DecidableEq

/-- A waypoint of the fixed enemy path. -/
structure Point where
  x : ℚ
  y : ℚ
deriving DecidableEq

/-- The session state tag. -/
inductive GState
  | waiting
  | playing
  | ended
deriving DecidableEq

/-- One queued spawn (`{"type": ..., "delay": ...}`); delays are Python
int arithmetic, hence exact. -/
structure SpawnEntry where
  type : String
  delay : ℤ
deriving DecidableEq

/-- `CastleGame` (`game_state.py`).  `nextId` models `uuid.uuid4()`
freshness, `rngIndex` the position in the shared random stream. -/
structure CastleGame where
  players : List GamePlayer := []
  towers : List Tower := []
  enemies : List Enemy := []
  projectiles : List Projectile := []
  troops : List Troop := []
  wave : ℕ := 0
  castleHealth : ℤ := 1000
  maxCastleHealth : ℤ := 1000
  state : GState := GState.waiting
  waveInProgress : Bool := false
  enemiesToSpawn : List SpawnEntry := []
  spawnTimer : ℚ := 0
  plots : List Plot := []
  path : List Point := []
  nextId : ℕ := 0
  rngIndex : ℕ := 0
deriving DecidableEq

/-- `CastleGame._generate_plots`: the 17 fixed plot positions. -/
def generatePlots : List Plot :=
  [⟨0, 50, 180, none, none⟩, ⟨1, 50, 420, none, none⟩,
   ⟨2, 170, 120, none, none⟩, ⟨3, 170, 420, none, none⟩, ⟨4, 170, 520, none, none⟩,
   ⟨5, 320, 280, none, none⟩, ⟨6, 320, 480, none, none⟩,
   ⟨7, 480, 80, none, none⟩, ⟨8, 620, 80, none, none⟩,
   ⟨9, 480, 280, none, none⟩, ⟨10, 620, 320, none, none⟩,
   ⟨11, 480, 520, none, none⟩, ⟨12, 620, 520, none, none⟩,
   ⟨13, 780, 180, none, none⟩, ⟨14, 780, 480, none, none⟩,
   ⟨15, 200, 280, none, none⟩, ⟨16, 680, 200, none, none⟩]

/-- `CastleGame._generate_path`: the fixed waypoint path. -/
def generatePath : List Point :=
  [⟨-30, 300⟩, ⟨100, 300⟩, ⟨100, 200⟩, ⟨250, 200⟩, ⟨250, 350⟩, ⟨400, 350⟩,
   ⟨400, 150⟩, ⟨550, 150⟩, ⟨550, 400⟩, ⟨700, 400⟩, ⟨700, 300⟩, ⟨850, 300⟩]

/-- `CastleGame.__init__`: a fresh waiting session. -/
def mkCastleGame : CastleGame := { plots := generatePlots, path := generatePath }

/-!
Python `dict` of players keyed by socket id: insertion-ordered; value
mutation happens through the stored object.  Modelled as a list whose
`id` fields are the keys.
-/

/-- `self.players.get(sid)`. -/
def playersGet (ps : List GamePlayer) (sid : String) : Option GamePlayer :=
  ps.find? (fun p => p.id = sid)

/-- `self.players[sid] = gp`: replace in place if the key exists,
otherwise append (dict insertion order). -/
def playersSet (ps : List GamePlayer) (gp : GamePlayer) : List GamePlayer :=
  if ps.any (fun p => p.id = gp.id) then
    ps.map (fun p => if p.id = gp.id then gp else p)
  else ps ++ [gp]

/-- In-place mutation of the player object stored under a key. -/
def playersUpdate (ps : List GamePlayer) (sid : String) (f : GamePlayer → GamePlayer) :
    List GamePlayer :=
  ps.map (fun p => if p.id = sid then f p else p)

/-- Mutation of the first list element satisfying a predicate; models
Python mutating the object found by `next(x for x in xs if ...)`. -/
def setFirst {α : Type} (p : α → Bool) (f : α → α) : List α → List α
  | [] => []
  | a :: as => if p a then f a :: as else a :: setFirst p f as

/-!
Roster commands and wave generation (`game_state.py` lines 228-320).
-/

/-- `CastleGame._recalculate_castle_health`. -/
def CastleGame.recalculateCastleHealth (g : CastleGame) : CastleGame :=
  let maxH := 1000 + (g.players.map (fun p => p.stats.castleHealthBonus)).sum
  let g := { g with maxCastleHealth := maxH }
  if g.state = GState.waiting then { g with castleHealth := maxH } else g

/-- `CastleGame.add_player`: build the in-game player from the profile
(`get_stats` bundle), store it under the socket id, recalculate castle
health. -/
def CastleGame.addPlayer (g : CastleGame) (socketId : String) (profile : CastlePlayer) :
    CastleGame × GamePlayer :=
  let gp := mkGamePlayer socketId profile
  (CastleGame.recalculateCastleHealth { g with players := playersSet g.players gp }, gp)

/-- `CastleGame.remove_player`: `self.players.pop(socket_id, None)` only;
castle health is not recalculated. -/
def CastleGame.removePlayer (g : CastleGame) (socketId : String) : CastleGame :=
  { g with players := g.players.filter (fun p => p.id ≠ socketId) }

/-- The per-slot type choice of `_generate_wave_enemies`: start at
`"grunt"`, then re-check the same roll against each wave-gated threshold
in source order, each check overwriting the previous choice. -/
def slotRollType (wave : ℕ) (roll : ℚ) : String :=
  let t := "grunt"
  let t := if 3 ≤ wave ∧ roll < f02 then "runner" else t
  let t := if 5 ≤ wave ∧ roll < f015 then "tank" else t
  let t := if 7 ≤ wave ∧ roll < f01 then "healer" else t
  let t := if 8 ≤ wave ∧ roll < f012 then "shield" else t
  let t := if 10 ≤ wave ∧ roll < f025 then "swarm" else t
  let t := if 12 ≤ wave ∧ roll < f008 then "ghost" else t
  let t := if 15 ≤ wave ∧ roll < f01 then "berserker" else t
  t

/-- `CastleGame._generate_wave_enemies`.  `base_count = 5 + int(wave*1.5)`:
the wave number is converted to binary64 (`roundNE`), multiplied by the
exactly representable 1.5, and truncated — the product is a half-integer
and rounds, so for huge waves the truncation can land one above
`⌊1.5*wave⌋` (first at wave 3002399751580333, where the product
4503599627370499.5 ties to the even 4503599627370500).
The regular loop draws `random.random()` once per slot, consumed here as
`rng (ri + i)`; the pair returns the advanced stream index. -/
def generateWaveEnemies (wave : ℕ) (rng : ℕ → ℚ) (ri : ℕ) : List SpawnEntry × ℕ :=
  let baseCount := 5 + (pyInt (fmul (roundNE (wave : ℚ)) f15)).toNat
  let bossPart : List SpawnEntry :=
    if wave % 5 = 0 then
      ⟨"boss", 0⟩ :: (List.range (wave / 2)).map (fun i => ⟨"healer", 500 + (i : ℤ) * 300⟩)
    else []
  let regulars : List SpawnEntry :=
    (List.range baseCount).map (fun i => ⟨slotRollType wave (rng (ri + i)), (i : ℤ) * 400⟩)
  let swarmPart : List SpawnEntry :=
    if wave % 7 = 0 ∧ 0 < wave then
      (List.range 20).map (fun i => ⟨"swarm", (baseCount : ℤ) * 400 + (i : ℤ) * 150⟩)
    else []
  (bossPart ++ regulars ++ swarmPart, ri + baseCount)

/-- `CastleGame.start_wave`: no-op while a wave is in progress; otherwise
increment the wave, grant wave bonus plus interest (both truncated
binary64 products, computed from the pre-bonus balance), and install the
spawn schedule.  The session state tag is not touched. -/
def CastleGame.startWave (g : CastleGame) (rng : ℕ → ℚ) : CastleGame :=
  if g.waveInProgress then g
  else
    let wave := g.wave + 1
    let waveBonus : ℤ := 50 + (wave : ℤ) * 15
    let players := g.players.map (fun p =>
      let bonus := pyInt (fmul (waveBonus : ℚ) p.stats.waveBonusMultiplier)
      let interest := pyInt (fmul (p.gold : ℚ) p.stats.goldInterest)
      { p with gold := p.gold + bonus + interest })
    let gen := generateWaveEnemies wave rng g.rngIndex
    { g with wave := wave, waveInProgress := true, players := players,
             enemiesToSpawn := gen.1, spawnTimer := 0, rngIndex := gen.2 }

/-!
Command handlers `place_tower` and `sell_tower`
(`game_state.py` lines 322-405).
-/

/-- The discriminated result of a command handler: `ok`, a reported
validation failure (`{"success": False, "error": msg}`), or an uncaught
Python exception (`exn`, reachable in `sell_tower` only when a placed
tower carries a type missing from the catalog: `tower_def["cost"]` on
`None`). -/
inductive PyResult (α : Type)
  | ok (a : α)
  | err (msg : String)
  | exn
deriving DecidableEq

/-- Troops spawned by a barracks placement: `troopCount` troops, each
drawing two jitter rolls `(random.random() - 0.5) * 40` around the plot
position. -/
def barracksTroops (rng : ℕ → ℚ) (plotX plotY : ℚ) (sid : String) (bd : TowerDef) :
    ℕ → ℕ → ℕ → List Troop × ℕ × ℕ
  | 0, nid, ri => ([], nid, ri)
  | n + 1, nid, ri =>
    let t : Troop :=
      { id := nid,
        x := fadd plotX (fmul (fsub (rng ri) f05) 40),
        y := fadd plotY (fmul (fsub (rng (ri + 1)) f05) 40),
        health := bd.troopHealth, damage := bd.damage, ownerId := sid, type := "soldier" }
    let rest := barracksTroops rng plotX plotY sid bd n (nid + 1) (ri + 2)
    (t :: rest.1, rest.2.1, rest.2.2)

/-- `CastleGame.place_tower`: validation chain, gold debit
`int(cost * towerCostMultiplier)` (binary64 product truncated), tower
creation bound to the plot, troop spawn for barracks.  Every failure
returns before any mutation. -/
def CastleGame.placeTower (g : CastleGame) (rng : ℕ → ℚ) (sid : String) (plotId : ℤ)
    (towerType : String) : CastleGame × PyResult Tower :=
  match playersGet g.players sid with
  | none => (g, PyResult.err "Player not found")
  | some player =>
    match g.plots.find? (fun p => p.id = plotId) with
    | none => (g, PyResult.err "Plot not found")
    | some plot =>
      if plot.tower.isSome then (g, PyResult.err "Plot already occupied")
      else
        match TOWER_TYPES towerType with
        | none => (g, PyResult.err "Invalid tower type")
        | some td =>
          if player.profile.level < td.unlockLevel then
            (g, PyResult.err ("Requires level " ++ toString td.unlockLevel))
          else
            let cost := pyInt (fmul (td.cost : ℚ) player.stats.towerCostMultiplier)
            if player.gold < cost then (g, PyResult.err "Not enough gold")
            else
              let players := playersUpdate g.players sid (fun p =>
                { p with gold := p.gold - cost, towersBuilt := p.towersBuilt + 1 })
              let tower : Tower :=
                { id := g.nextId, type := towerType, x := plot.x, y := plot.y,
                  plotId := plotId, ownerId := sid, ownerName := player.name }
              let plots := setFirst (fun p => p.id = plotId)
                (fun p => { p with tower := some tower.id, owner := some sid }) g.plots
              let g2 := { g with players := players, towers := g.towers ++ [tower],
                                 plots := plots, nextId := g.nextId + 1 }
              if towerType = "barracks" then
                match TOWER_TYPES "barracks" with
                | none => (g2, PyResult.ok tower)
                | some bd =>
                  let tr := barracksTroops rng plot.x plot.y sid bd bd.troopCount
                    g2.nextId g2.rngIndex
                  ({ g2 with troops := g2.troops ++ tr.1, nextId := tr.2.1,
                             rngIndex := tr.2.2 }, PyResult.ok tower)
              else (g2, PyResult.ok tower)

/-- `CastleGame.sell_tower`: validations, then refund
`int(base_cost * 0.6)` from the archetype base cost, remove the tower,
free the plot. -/
def CastleGame.sellTower (g : CastleGame) (sid : String) (plotId : ℤ) :
    CastleGame × PyResult ℤ :=
  match playersGet g.players sid with
  | none => (g, PyResult.err "Player not found")
  | some _player =>
    match g.plots.find? (fun p => p.id = plotId) with
    | none => (g, PyResult.err "Plot not found")
    | some plot =>
      match plot.tower with
      | none => (g, PyResult.err "No tower here")
      | some towerId =>
        if plot.owner ≠ some sid then (g, PyResult.err "Not your tower")
        else
          match g.towers.find? (fun t => t.id = towerId) with
          | none => (g, PyResult.err "Tower not found")
          | some tower =>
            match TOWER_TYPES tower.type with
            | none => (g, PyResult.exn)
            | some td =>
              let refund := pyInt (fmul (td.cost : ℚ) f06)
              let players := playersUpdate g.players sid (fun p =>
                { p with gold := p.gold + refund })
              let towers := g.towers.filter (fun t => t.id ≠ tower.id)
              let plots := setFirst (fun p => p.id = plotId)
                (fun p => { p with tower := none, owner := none }) g.plots
              ({ g with players := players, towers := towers, plots := plots },
               PyResult.ok refund)

/-!
The per-tick update (`CastleGame.update`, `game_state.py` lines 407-712),
phase by phase in source order: spawning, enemy pass with deferred
removal, towers, projectiles, healer auras, troops, wave-complete check,
terminal check.
-/

/-- The squared-then-rooted binary64 distance `math.sqrt(dx*dx + dy*dy)`
used throughout the update. -/
def fdist (dx dy : ℚ) : ℚ := fsqrt (fadd (fmul dx dx) (fmul dy dy))

/-- `Enemy.__init__` for `_spawn_enemy`: health
`int(base * (1 + (wave-1)*0.15))` and reward `int(base * (1 + wave*0.1))`,
both binary64 products truncated; `none` when the type is missing from
the catalog (then `_spawn_enemy` returns without spawning). -/
def mkEnemy (nid : ℕ) (etype : String) (wave : ℕ) (p0 : Point) : Option Enemy :=
  (ENEMY_TYPES etype).map (fun t =>
    let waveMultiplier := fadd 1 (fmul ((wave : ℚ) - 1) f015)
    let health : ℤ := pyInt (fmul (t.health : ℚ) waveMultiplier)
    { id := nid, type := etype, x := p0.x, y := p0.y,
      health := (health : ℚ), maxHealth := (health : ℚ), speed := t.speed,
      reward := pyInt (fmul (t.reward : ℚ) (fadd 1 (fmul (wave : ℚ) f01))),
      color := t.color, size := t.size, armor := t.armor, heals := t.heals,
      phasing := t.phasing, enrages := t.enrages })

/-- The spawn while-loop: pop and spawn queued entries whose delay the
spawn clock has reached. -/
def runSpawns (wave : ℕ) (p0 : Point) (timer : ℚ) :
    List SpawnEntry → ℕ → List Enemy × List SpawnEntry × ℕ
  | [], nid => ([], [], nid)
  | s :: rest, nid =>
    if (s.delay : ℚ) ≤ timer then
      match mkEnemy nid s.type wave p0 with
      | none => runSpawns wave p0 timer rest nid
      | some e =>
        let r := runSpawns wave p0 timer rest (nid + 1)
        (e :: r.1, r.2.1, r.2.2)
    else ([], s :: rest, nid)

/-- Update step 1: accumulate the spawn clock and spawn due enemies at
the first waypoint. -/
def spawnPhase (Δ : ℚ) (g : CastleGame) : CastleGame :=
  if g.enemiesToSpawn.isEmpty then g
  else
    let timer := fadd g.spawnTimer Δ
    let r := runSpawns g.wave (g.path.headD ⟨0, 0⟩) timer g.enemiesToSpawn g.nextId
    { g with spawnTimer := timer, enemies := g.enemies ++ r.1,
             enemiesToSpawn := r.2.1, nextId := r.2.2 }

/-- The body of the enemy pass for one enemy: returns the mutated enemy,
whether it was appended to `enemies_to_remove`, and the castle damage it
dealt.  A stunned enemy is skipped entirely (`continue`), so it is
neither moved, burned, nor checked for death. -/
def enemyStep (path : List Point) (wave : ℕ) (now : ℤ) (Δ : ℚ) (e : Enemy) :
    Enemy × Bool × ℤ :=
  if now < e.stunnedUntil then (e, false, 0)
  else
    let e := if e.burning ∧ now < e.burnUntil then
        { e with health := fsub e.health (fmul e.burnDamage (fdiv Δ 1000)) }
      else { e with burning := false }
    let e := if e.enrages ∧ ¬e.enraged ∧ e.health < fmul e.maxHealth f03 then
        { e with enraged := true, speed := fmul e.speed 2, color := "#FF0000" }
      else e
    let speed := if now < e.slowedUntil then fmul e.speed f05 else e.speed
    match path.get? (e.pathIndex + 1) with
    | some target =>
      let dx := fsub target.x e.x
      let dy := fsub target.y e.y
      let dist := fdist dx dy
      let e := if dist < fmul speed 2 then { e with pathIndex := e.pathIndex + 1 }
        else { e with
          x := fadd e.x (fmul (fmul (fdiv dx dist) speed) (fdiv Δ 16)),
          y := fadd e.y (fmul (fmul (fdiv dy dist) speed) (fdiv Δ 16)) }
      if e.health ≤ 0 then (e, true, 0) else (e, false, 0)
    | none => (e, true, 10 + ((wave : ℤ) / 2))

/-- The enemy pass: mutate every enemy in place, collect the marked ones,
then remove them only after the full pass (`list.remove` loop, modelled
by `List.erase`).  Returns the surviving list and the total castle
damage. -/
def enemyPass (path : List Point) (wave : ℕ) (now : ℤ) (Δ : ℚ) (es : List Enemy) :
    List Enemy × ℤ :=
  let steps := es.map (enemyStep path wave now Δ)
  let marked := (steps.filter (fun s => s.2.1)).map (fun s => s.1)
  let survivors := marked.foldl (fun l e => l.erase e) (steps.map (fun s => s.1))
  (survivors, (steps.map (fun s => s.2.2)).sum)

/-- Update step 2 as a phase on the game state. -/
def enemyPhase (now : ℤ) (Δ : ℚ) (g : CastleGame) : CastleGame :=
  let r := enemyPass g.path g.wave now Δ g.enemies
  { g with enemies := r.1, castleHealth := g.castleHealth - r.2 }

/-- The first-wins strict-minimum target scan of a firing tower:
`closest_dist` starts at the effective range; phasing enemies are only
valid for the two magic tower types.  Returns the index (for in-place
mutation), the enemy, and the final `closest_dist`. -/
def findTarget (ttype : String) (tx ty : ℚ) (range : ℚ) (es : List Enemy) :
    Option (ℕ × Enemy) × ℚ :=
  es.enum.foldl (fun acc ie =>
    let e := ie.2
    if e.phasing ∧ ttype ≠ "wizard" ∧ ttype ≠ "necromancer" then acc
    else
      let dist := fdist (fsub e.x tx) (fsub e.y ty)
      if dist < acc.2 then (some ie, dist) else acc) (none, range)

/-- The chain-lightning scan from the current chain target: nearest enemy
strictly within 100, excluding only the enemy whose id equals the current
target's id. -/
def chainScan (es : List Enemy) (lastT : Enemy) : Option Enemy :=
  (es.foldl (fun acc e =>
    if e.id = lastT.id then acc
    else
      let dist := fdist (fsub e.x lastT.x) (fsub e.y lastT.y)
      if dist < acc.2 then (some e, dist) else acc) (none, (100 : ℚ))).1

/-- The chain-lightning loop (`for c in range(1, chainCount)`): the
source has no `break`, so an unsuccessful scan leaves the chain source
unchanged and the loop keeps running. -/
def chainLoop (ownerId : String) (dmg : ℚ) (es : List Enemy) :
    ℕ → Enemy → ℕ → List Projectile × ℕ
  | 0, _, nid => ([], nid)
  | c + 1, lastT, nid =>
    match chainScan es lastT with
    | none => chainLoop ownerId dmg es c lastT nid
    | some ct =>
      let pr : Projectile :=
        { id := nid, x := lastT.x, y := lastT.y, targetId := ct.id,
          damage := fmul dmg f07, speed := 12, type := "chain",
          ownerId := ownerId, color := "#9932CC" }
      let rest := chainLoop ownerId dmg es c ct (nid + 1)
      (pr :: rest.1, rest.2)

/-- Accumulator of the tower pass. -/
structure TowerAcc where
  towers : List Tower
  enemies : List Enemy
  players : List GamePlayer
  projectiles : List Projectile
  nextId : ℕ
  rngIndex : ℕ

/-- Shrine damage boost for a firing tower: `1.0` plus `damageBoost` for
every shrine tower within the shrine range.  The scan reads only
immutable tower fields, so it runs over the pre-pass tower list. -/
def shrineBoost (allTowers : List Tower) (tx ty : ℚ) : ℚ :=
  match TOWER_TYPES "shrine" with
  | none => 1
  | some sd =>
    allTowers.foldl (fun boost o =>
      if o.type = "shrine" ∧ fdist (fsub o.x tx) (fsub o.y ty) ≤ sd.range then
        fadd boost sd.damageBoost
      else boost) 1

/-- One tower of update step 4: owner and archetype lookups absorb
failures as no-ops; gold mines credit income; shrines are passive; other
towers fire at the scanned target with shrine boost, crit roll, armor
reduction, on-fire status effects, and the wizard chain. -/
def towerStep (now : ℤ) (rng : ℕ → ℚ) (allTowers : List Tower) (acc : TowerAcc)
    (t : Tower) : TowerAcc :=
  match playersGet acc.players t.ownerId with
  | none => { acc with towers := acc.towers ++ [t] }
  | some owner =>
    match TOWER_TYPES t.type with
    | none => { acc with towers := acc.towers ++ [t] }
    | some td =>
      let effFireRate := fdiv td.fireRate owner.stats.towerSpeedMultiplier
      let effRange := fmul td.range owner.stats.towerRangeMultiplier
      let effDamage := fmul td.damage owner.stats.towerDamageMultiplier
      if t.type = "goldmine" then
        if td.fireRate ≤ ((now - t.lastFired : ℤ) : ℚ) then
          let goldGen := pyInt (fmul (td.goldPerTick : ℚ) owner.stats.mineEfficiencyMultiplier)
          { acc with towers := acc.towers ++ [{ t with lastFired := now }],
                     players := playersUpdate acc.players t.ownerId (fun p =>
                       { p with gold := p.gold + goldGen }) }
        else { acc with towers := acc.towers ++ [t] }
      else if t.type = "shrine" then { acc with towers := acc.towers ++ [t] }
      else if effFireRate ≤ ((now - t.lastFired : ℤ) : ℚ) then
        match (findTarget t.type t.x t.y effRange acc.enemies).1 with
        | none => { acc with towers := acc.towers ++ [t] }
        | some (ti, target) =>
          let boost := shrineBoost allTowers t.x t.y
          let damage := fmul effDamage boost
          let critChance := fadd owner.stats.critChanceBonus td.critChance
          let roll := rng acc.rngIndex
          let damage := if roll < critChance then fmul damage td.critMultiplier else damage
          let damage := if 0 < target.armor then fmul damage (fsub 1 target.armor) else damage
          let proj : Projectile :=
            { id := acc.nextId, x := t.x, y := t.y, targetId := target.id, damage := damage,
              speed := 8, type := t.type, ownerId := t.ownerId, color := td.color }
          let enemies := acc.enemies.set ti
            (if t.type = "frost" then { target with slowedUntil := now + td.slowDuration }
             else if t.type = "tesla" then { target with stunnedUntil := now + td.stunDuration }
             else if t.type = "dragon" then
               { target with burning := true, burnDamage := td.burnDamage,
                             burnUntil := now + td.burnDuration }
             else target)
          let chain :=
            if t.type = "wizard" ∧ 1 < td.chainCount then
              chainLoop t.ownerId damage enemies (td.chainCount - 1) target (acc.nextId + 1)
            else ([], acc.nextId + 1)
          { acc with towers := acc.towers ++ [{ t with lastFired := now }],
                     enemies := enemies,
                     projectiles := acc.projectiles ++ [proj] ++ chain.1,
                     nextId := chain.2, rngIndex := acc.rngIndex + 1 }
      else { acc with towers := acc.towers ++ [t] }

/-- Update step 4 as a phase on the game state. -/
def towerPhase (now : ℤ) (rng : ℕ → ℚ) (g : CastleGame) : CastleGame :=
  let acc := g.towers.foldl (towerStep now rng g.towers)
    { towers := [], enemies := g.enemies, players := g.players,
      projectiles := g.projectiles, nextId := g.nextId, rngIndex := g.rngIndex }
  { g with towers := acc.towers, enemies := acc.enemies, players := acc.players,
           projectiles := acc.projectiles, nextId := acc.nextId, rngIndex := acc.rngIndex }

/-- Accumulator of the projectile pass: the per-projectile mutated list
is rebuilt in `processed`, removal is deferred to the sweep. -/
structure ProjAcc where
  processed : List Projectile
  marked : List Projectile
  enemies : List Enemy
  players : List GamePlayer
  troops : List Troop
  nextId : ℕ
  rngIndex : ℕ

/-- One projectile of update step 5: dangling targets mark the projectile
for removal; within `2*speed` it impacts (direct damage, mortar splash,
damage attribution, kill credit on post-impact health ≤ 0, necromancer
skeleton roll) and is marked; otherwise it advances by a constant step. -/
def projStep (rng : ℕ → ℚ) (acc : ProjAcc) (p : Projectile) : ProjAcc :=
  match (acc.enemies.enum.find? (fun ie => ie.2.id = p.targetId)) with
  | none => { acc with processed := acc.processed ++ [p], marked := acc.marked ++ [p] }
  | some it =>
    let ti := it.1
    let target := it.2
    let dx := fsub target.x p.x
    let dy := fsub target.y p.y
    let dist := fdist dx dy
    if dist < fmul p.speed 2 then
      let hitTarget := { target with health := fsub target.health p.damage }
      let enemies := acc.enemies.set ti hitTarget
      let enemies :=
        if p.type = "mortar" then
          match TOWER_TYPES "mortar" with
          | none => enemies
          | some md =>
            enemies.map (fun e =>
              if e.id = target.id then e
              else if fdist (fsub e.x target.x) (fsub e.y target.y) ≤ md.splashRadius then
                { e with health := fsub e.health (fmul p.damage f05) }
              else e)
        else enemies
      let ownerPresent := (playersGet acc.players p.ownerId).isSome
      let players := playersUpdate acc.players p.ownerId (fun ow =>
        { ow with damageDealt := fadd ow.damageDealt p.damage })
      if hitTarget.health ≤ 0 ∧ ownerPresent then
        let players := playersUpdate players p.ownerId (fun ow =>
          { ow with gold := ow.gold + pyInt (fmul (target.reward : ℚ) ow.stats.killBonusMultiplier),
                    enemiesKilled := ow.enemiesKilled + 1,
                    score := ow.score + target.reward })
        if p.type = "necromancer" then
          match TOWER_TYPES "necromancer" with
          | none => { acc with processed := acc.processed ++ [p], marked := acc.marked ++ [p],
                               enemies := enemies, players := players }
          | some nd =>
            let roll := rng acc.rngIndex
            let troops :=
              if roll < nd.skeletonChance then
                acc.troops ++ [{ id := acc.nextId, x := target.x, y := target.y, health := 30,
                                 damage := 10, ownerId := p.ownerId, type := "skeleton" }]
              else acc.troops
            { acc with processed := acc.processed ++ [p], marked := acc.marked ++ [p],
                       enemies := enemies, players := players, troops := troops,
                       nextId := if roll < nd.skeletonChance then acc.nextId + 1 else acc.nextId,
                       rngIndex := acc.rngIndex + 1 }
        else
          { acc with processed := acc.processed ++ [p], marked := acc.marked ++ [p],
                     enemies := enemies, players := players }
      else
        { acc with processed := acc.processed ++ [p], marked := acc.marked ++ [p],
                   enemies := enemies, players := players }
    else
      let p2 := { p with x := fadd p.x (fmul (fdiv dx dist) p.speed),
                         y := fadd p.y (fmul (fdiv dy dist) p.speed) }
      { acc with processed := acc.processed ++ [p2] }

/-- Update step 5 as a phase: run every projectile, then sweep the marked
ones (`list.remove` loop). -/
def projectilePhase (rng : ℕ → ℚ) (g : CastleGame) : CastleGame :=
  let acc := g.projectiles.foldl (projStep rng)
    { processed := [], marked := [], enemies := g.enemies, players := g.players,
      troops := g.troops, nextId := g.nextId, rngIndex := g.rngIndex }
  { g with projectiles := acc.marked.foldl (fun l p => l.erase p) acc.processed,
           enemies := acc.enemies, players := acc.players, troops := acc.troops,
           nextId := acc.nextId, rngIndex := acc.rngIndex }

/-- The inner loop of the healer aura: one healer restores
`0.5 * (Δ/16)` health (capped at max) to every other enemy within 80. -/
def healOthers (Δ : ℚ) (healer : Enemy) (es : List Enemy) : List Enemy :=
  es.map (fun o =>
    if o.id = healer.id then o
    else if fdist (fsub o.x healer.x) (fsub o.y healer.y) < 80 then
      { o with health := pyMin o.maxHealth (fadd o.health (fmul f05 (fdiv Δ 16))) }
    else o)

/-- Update step: healer auras.  The outer loop walks the list positions;
the fields it reads from the healer (`heals`, position, id) are never
mutated by the inner loop, earlier healers only change health values. -/
def healerPhase (Δ : ℚ) (g : CastleGame) : CastleGame :=
  { g with enemies :=
      (List.range g.enemies.length).foldl (fun cur i =>
        match cur.get? i with
        | none => cur
        | some e => if e.heals then healOthers Δ e cur else cur) g.enemies }

/-- Accumulator of the troop pass. -/
structure TroopAcc where
  processed : List Troop
  marked : List Troop
  enemies : List Enemy

/-- One troop of update step 6: first-wins nearest enemy within 200;
melee exchange within 20, otherwise a constant-step move; troops at
health ≤ 0 are marked for the sweep. -/
def troopStep (Δ : ℚ) (acc : TroopAcc) (tr : Troop) : TroopAcc :=
  let scan := acc.enemies.enum.foldl (fun s ie =>
    let dist := fdist (fsub ie.2.x tr.x) (fsub ie.2.y tr.y)
    if dist < s.2 then (some ie, dist) else s) (none, (200 : ℚ))
  let r : Troop × List Enemy :=
    match scan.1 with
    | none => (tr, acc.enemies)
    | some it =>
      let ti := it.1
      let target := it.2
      if scan.2 < 20 then
        ({ tr with health := fsub tr.health (fmul 2 (fdiv Δ 500)) },
         acc.enemies.set ti
           { target with health := fsub target.health (fmul tr.damage (fdiv Δ 500)) })
      else
        let dx := fsub target.x tr.x
        let dy := fsub target.y tr.y
        let dist := fdist dx dy
        ({ tr with x := fadd tr.x (fmul (fdiv dx dist) 2),
                   y := fadd tr.y (fmul (fdiv dy dist) 2) }, acc.enemies)
  { processed := acc.processed ++ [r.1],
    marked := if r.1.health ≤ 0 then acc.marked ++ [r.1] else acc.marked,
    enemies := r.2 }

/-- Update step 6 as a phase on the game state. -/
def troopPhase (Δ : ℚ) (g : CastleGame) : CastleGame :=
  let acc := g.troops.foldl (troopStep Δ) { processed := [], marked := [], enemies := g.enemies }
  { g with troops := acc.marked.foldl (fun l t => l.erase t) acc.processed,
           enemies := acc.enemies }

/-- Update step 7: clear the wave-in-progress flag once both the live
enemies and the pending spawn queue are empty. -/
def waveCompletePhase (g : CastleGame) : CastleGame :=
  if g.waveInProgress ∧ g.enemies.isEmpty ∧ g.enemiesToSpawn.isEmpty then
    { g with waveInProgress := false }
  else g

/-- Update step 8: the terminal check.  Castle health ≤ 0 moves the
session to `ended`. -/
def endCheckPhase (g : CastleGame) : CastleGame :=
  if g.castleHealth ≤ 0 then { g with state := GState.ended } else g

/-- `CastleGame.update`: a no-op unless `playing`; otherwise the phases
in source order. -/
def CastleGame.update (g : CastleGame) (now : ℤ) (Δ : ℚ) (rng : ℕ → ℚ) : CastleGame :=
  if g.state ≠ GState.playing then g
  else
    endCheckPhase (waveCompletePhase (troopPhase Δ (healerPhase Δ
      (projectilePhase rng (towerPhase now rng (enemyPhase now Δ (spawnPhase Δ g)))))))

/-- One record of the end-of-game results. -/
structure GameResult where
  playerId : String
  playerName : String
  xpEarned : ℤ
  newLevel : ℕ
  levelsGained : ℕ
  perkPoints : ℕ
  enemiesKilled : ℕ
  damageDealt : ℤ
  towersBuilt : ℕ
deriving DecidableEq

/-- `CastleGame.end_game`: one result per player in the roster, XP
`int((50 + wave*20 + kills*2 + (playerCount-1)*15) * xpMultiplier)`,
with the profile updated in place. -/
def CastleGame.endGame (g : CastleGame) : CastleGame × List GameResult :=
  let n := g.players.length
  let updated := g.players.map (fun player =>
    let totalXp : ℤ := pyInt (fmul
      ((50 + (g.wave : ℤ) * 20 + (player.enemiesKilled : ℤ) * 2 + ((n : ℤ) - 1) * 15 : ℤ) : ℚ)
      player.stats.xpMultiplier)
    let r := player.profile.addXp totalXp
    let profile := { r.1 with
      totalGamesPlayed := r.1.totalGamesPlayed + 1,
      totalWavesSurvived := r.1.totalWavesSurvived + g.wave,
      totalEnemiesKilled := r.1.totalEnemiesKilled + player.enemiesKilled,
      highestWave := if r.1.highestWave < g.wave then g.wave else r.1.highestWave }
    let result : GameResult :=
      { playerId := player.id, playerName := player.name, xpEarned := totalXp,
        newLevel := profile.level, levelsGained := r.2, perkPoints := profile.perkPoints,
        enemiesKilled := player.enemiesKilled, damageDealt := pyInt player.damageDealt,
        towersBuilt := player.towersBuilt }
    ({ player with profile := profile }, result))
  ({ g with players := updated.map (fun u => u.1) }, updated.map (fun u => u.2))

/-!
Socket handlers (`src/app.py`).  `handle_cd_join_game` adds the player to
the matched session and then promotes any `waiting` session to `playing`;
`handle_cd_start_wave` refuses unless the session is already `playing`.
-/

/-- `handle_cd_join_game` (`app.py` lines 571-593), restricted to its
effect on the joined session. -/
def cdJoinGame (sid : String) (profile : CastlePlayer) (g : CastleGame) : CastleGame :=
  let g := (g.addPlayer sid profile).1
  if g.state = GState.waiting then { g with state := GState.playing } else g

/-- `handle_cd_start_wave` (`app.py` lines 605-620): the start-wave
command reaches `start_wave` only when the session is `playing`. -/
def cdStartWave (g : CastleGame) (rng : ℕ → ℚ) : CastleGame :=
  if g.state ≠ GState.playing then g else g.startWave rng

/-!
Concrete scenarios used to evaluate the translated operations at
specific inputs.
-/

/-- A degenerate random oracle: every draw is 0. -/
def rng0 : ℕ → ℚ := fun _ => 0

/-- A profile with no perks: every multiplier 1, every bonus 0. -/
def plainProfile : CastlePlayer := { name := "Player" }

/-- A profile whose only perk is one castle-health level (+50). -/
def fortifyProfile : CastlePlayer :=
  { name := "Fortifier", stats := { castleHealthBonus := 50 } }

/-- The binary64 value of the stat `1.0 - 1 * 0.02` (one tower-discount
perk level), slightly below 98/100. -/
def m098 : ℚ := 2206763817411543 / 2251799813685248

/-- A profile with one tower-discount perk level. -/
def discountProfile : CastlePlayer :=
  { name := "Discounter", stats := { towerCostMultiplier := m098 } }

/-- A session after one plain join: used to exercise the handlers. -/
def joinedGame : CastleGame := cdJoinGame "p1" plainProfile mkCastleGame

/-- A playing session holding one stunned enemy that is already at
non-positive health (grunt shape, health -5, stun far in the future). -/
def stunnedDeadEnemy : Enemy :=
  { id := 7, type := "grunt", x := 100, y := 300, health := -5, maxHealth := 57,
    speed := 1, reward := 10, color := "#8B0000", size := 12, stunnedUntil := 1000000 }

/-- A non-stunned enemy already at non-positive health. -/
def deadEnemy : Enemy :=
  { id := 8, type := "grunt", x := 100, y := 300, health := -5, maxHealth := 57,
    speed := 1, reward := 10, color := "#8B0000", size := 12 }

/-- Playing session holding only `deadEnemy`. -/
def deadEnemyGame : CastleGame :=
  { mkCastleGame with
    state := GState.playing,
    players := [mkGamePlayer "p1" plainProfile],
    enemies := [deadEnemy] }

/-- Session for the stunned-dead-enemy scenario. -/
def stunnedDeadGame : CastleGame :=
  { mkCastleGame with
    state := GState.playing,
    players := [mkGamePlayer "p1" plainProfile],
    enemies := [stunnedDeadEnemy] }

/-- A wizard tower at the origin for the chain scenario. -/
def wizardTower : Tower :=
  { id := 1, type := "wizard", x := 0, y := 0, plotId := 0, ownerId := "p1",
    ownerName := "Player" }

/-- Chain scenario enemy A: in wizard range, the initial target. -/
def chainEnemyA : Enemy :=
  { id := 11, type := "grunt", x := 100, y := 0, health := 500, maxHealth := 500,
    speed := 1, reward := 10, color := "#8B0000", size := 12, stunnedUntil := 1000000 }

/-- Chain scenario enemy B: out of tower range but within 100 of A. -/
def chainEnemyB : Enemy :=
  { id := 12, type := "grunt", x := 160, y := 0, health := 500, maxHealth := 500,
    speed := 1, reward := 10, color := "#8B0000", size := 12, stunnedUntil := 1000000 }

/-- Session for the chain-lightning scenario: a wizard (chainCount 3) and
two stunned enemies on the x-axis, all distances exactly representable. -/
def chainGame : CastleGame :=
  { mkCastleGame with
    state := GState.playing,
    players := [mkGamePlayer "p1" plainProfile],
    towers := [wizardTower],
    enemies := [chainEnemyA, chainEnemyB] }

/-- Double-credit scenario enemy: alive at health 4, stunned so that the
enemy-pass sweep never examines it. -/
def stunnedLowEnemy : Enemy :=
  { id := 5, type := "grunt", x := 100, y := 300, health := 4, maxHealth := 57,
    speed := 1, reward := 10, color := "#8B0000", size := 12, stunnedUntil := 1000000 }

/-- Two cannon projectiles already at the stunned enemy's position, both
aimed at it, 10 damage each. -/
def hitProj (pid : ℕ) : Projectile :=
  { id := pid, x := 100, y := 300, targetId := 5, damage := 10, speed := 8,
    type := "cannon", ownerId := "p1", color := "#8B4513" }

/-- Session for the double-kill-credit scenario. -/
def doubleCreditGame : CastleGame :=
  { mkCastleGame with
    state := GState.playing,
    players := [mkGamePlayer "p1" plainProfile],
    enemies := [stunnedLowEnemy],
    projectiles := [hitProj 21, hitProj 22] }

/-- The initial projectile-pass accumulator of the double-credit
scenario. -/
def c10acc : ProjAcc :=
  { processed := [], marked := [], enemies := [stunnedLowEnemy],
    players := [mkGamePlayer "p1" plainProfile], troops := [], nextId := 0, rngIndex := 0 }

/-- The binary64 value of the stat `1.0 + 3 * 0.05` (three kill-bonus
perk levels): the double nearest 1.15, slightly below it. -/
def kb115 : ℚ := 5179139571476070 / 4503599627370496

/-- A profile with three kill-bonus perk levels. -/
def killBonusProfile : CastlePlayer :=
  { name := "Bounty", stats := { killBonusMultiplier := kb115 } }

/-- An enemy carrying reward 20 (what a grunt spawned at wave 10 gets:
`int(10 * (1 + 10*0.1)) = 20`), alive at health 4 and stunned so the
enemy pass leaves it in place. -/
def rewardEnemy : Enemy :=
  { id := 6, type := "grunt", x := 100, y := 300, health := 4, maxHealth := 117,
    speed := 1, reward := 20, color := "#8B0000", size := 12, stunnedUntil := 1000000 }

/-- A cannon projectile of the kill-bonus player, already at the reward
enemy's position and aimed at it. -/
def kbProj : Projectile :=
  { id := 31, x := 100, y := 300, targetId := 6, damage := 10, speed := 8,
    type := "cannon", ownerId := "kb", color := "#8B4513" }

/-- Session for the kill-bonus crediting scenario. -/
def kbGame : CastleGame :=
  { mkCastleGame with
    state := GState.playing,
    players := [mkGamePlayer "kb" killBonusProfile],
    enemies := [rewardEnemy],
    projectiles := [kbProj] }

/-- A waiting session with the discount player and 200 gold, for the
tower-cost scenario. -/
def discountGame : CastleGame :=
  { mkCastleGame with players := [mkGamePlayer "pd" discountProfile] }

/-- The cannon tower owned by "p1" on plot 0 in the sell scenario. -/
def soldTower : Tower :=
  { id := 3, type := "cannon", x := 50, y := 180, plotId := 0,
    ownerId := "p1", ownerName := "Player" }

/-- Plot 0 holding `soldTower` in the sell scenario. -/
def soldPlot : Plot := { id := 0, x := 50, y := 180, tower := some 3, owner := some "p1" }

/-- The catalog entry of the cannon archetype. -/
def cannonDef : TowerDef :=
  { cost := 100, damage := 25, range := 150, fireRate := 1000,
    unlockLevel := 1, color := "#8B4513" }

/-- A playing session where "p1" owns a cannon on plot 0 and "p2" is also
present, for the sell scenario. -/
def sellGame : CastleGame :=
  { mkCastleGame with
    state := GState.playing,
    players := [mkGamePlayer "p1" plainProfile, mkGamePlayer "p2" plainProfile],
    towers := [soldTower],
    plots := setFirst (fun p => p.id = 0)
      (fun p => { p with tower := some 3, owner := some "p1" }) generatePlots }

/-- The tower created by the successful discount placement. -/
def discountPlaced : Tower :=
  { id := 0, type := "cannon", x := 50, y := 180, plotId := 0,
    ownerId := "pd", ownerName := "Discounter" }

/-!
Spec-side companions for the wave-composition and scaling claims.
-/

/-- The wave-gated override table, in source order: gate wave, threshold,
resulting type. -/
def waveCandidates : List (ℕ × ℚ × String) :=
  [(3, f02, "runner"), (5, f015, "tank"), (7, f01, "healer"), (8, f012, "shield"),
   (10, f025, "swarm"), (12, f008, "ghost"), (15, f01, "berserker")]

/-- The slot type as the claim words it: the last candidate whose wave
gate and roll threshold both pass wins; default grunt. -/
def specSlotType (wave : ℕ) (roll : ℚ) : String :=
  match (waveCandidates.reverse).find? (fun c => decide (c.1 ≤ wave ∧ roll < c.2.1)) with
  | some c => c.2.2
  | none => "grunt"

/-- The spawn health the code produces for a named archetype at a wave. -/
def spawnHealth (name : String) (W : ℕ) : Option ℚ :=
  (mkEnemy 0 name W ⟨-30, 300⟩).map (fun e => e.health)

/-- The spawn reward the code produces for a named archetype at a wave. -/
def spawnReward (name : String) (W : ℕ) : Option ℤ :=
  (mkEnemy 0 name W ⟨-30, 300⟩).map (fun e => e.reward)

/-- The exact (real-arithmetic) health scaling `H * (1 + (W-1)*0.15)`. -/
def exactHealth (H : ℤ) (W : ℕ) : ℚ := (H : ℚ) * (1 + ((W : ℚ) - 1) * (3/20))

/-- The exact (real-arithmetic) reward scaling `R * (1 + W*0.1)`. -/
def exactReward (R : ℤ) (W : ℕ) : ℚ := (R : ℚ) * (1 + (W : ℚ) * (1/10))

/-- The claim's spawn health: floor of the exact scaling. -/
def floorHealth (name : String) (W : ℕ) : Option ℚ :=
  (ENEMY_TYPES name).map (fun t => ((⌊exactHealth t.health W⌋ : ℤ) : ℚ))

/-- Floor of the exact scaling minus one. -/
def floorHealthPred (name : String) (W : ℕ) : Option ℚ :=
  (ENEMY_TYPES name).map (fun t => ((⌊exactHealth t.health W⌋ - 1 : ℤ) : ℚ))

/-- Whether the exact health scaling lands on an integer. -/
def healthIntegral (name : String) (W : ℕ) : Prop :=
  (ENEMY_TYPES name).map (fun t => (exactHealth t.health W).den) = some 1

/-- The claim's spawn reward: floor of the exact scaling. -/
def floorReward (name : String) (W : ℕ) : Option ℤ :=
  (ENEMY_TYPES name).map (fun t => ⌊exactReward t.reward W⌋)

/-- Floor of the exact reward scaling minus one. -/
def floorRewardPred (name : String) (W : ℕ) : Option ℤ :=
  (ENEMY_TYPES name).map (fun t => ⌊exactReward t.reward W⌋ - 1)

/-- Whether the exact reward scaling lands on an integer. -/
def rewardIntegral (name : String) (W : ℕ) : Prop :=
  (ENEMY_TYPES name).map (fun t => (exactReward t.reward W).den) = some 1

/-- The nine archetype names of the enemy catalog. -/
def enemyTypeNames : List String :=
  ["grunt", "runner", "tank", "healer", "shield", "boss", "swarm", "ghost", "berserker"]

instance (name : String) (W : ℕ) : Decidable (healthIntegral name W) := by
  unfold healthIntegral; infer_instance

instance (name : String) (W : ℕ) : Decidable (rewardIntegral name W) := by
  unfold rewardIntegral; infer_instance

/-- An ended session with one player, for the absorbing-state checks. -/
def endedGame : CastleGame :=
  { mkCastleGame with
    state := GState.ended,
    players := [mkGamePlayer "p1" plainProfile] }

/-- A playing session whose castle health is already 0 when an update
begins. -/
def zeroHealthGame : CastleGame :=
  { mkCastleGame with
    state := GState.playing,
    castleHealth := 0 }

/-!
Helper lemmas: the mark-then-sweep removal pattern, and state/identity
preservation facts about the operations, shared by several results below.
-/

theorem foldl_erase_skip {α : Type} [DecidableEq α] (a : α) :
    ∀ (ms : List α) (t : List α), (∀ x ∈ ms, x ≠ a) →
      ms.foldl (fun l e => l.erase e) (a :: t) = a :: ms.foldl (fun l e => l.erase e) t
  | [], t, _ => rfl
  | m :: ms, t, h => by
    have hm : m ≠ a := h m (List.mem_cons_self m ms)
    simp only [List.foldl_cons]
    rw [List.erase_cons_tail]
    · exact foldl_erase_skip a ms (t.erase m) (fun x hx => h x (List.mem_cons_of_mem m hx))
    · exact fun hh => hm (eq_of_beq hh).symm

theorem erase_foldl_eq_filter {α : Type} [DecidableEq α] :
    ∀ (l : List α) (p : α → Bool), l.Nodup →
      (l.filter p).foldl (fun acc a => acc.erase a) l = l.filter (fun a => !(p a))
  | [], _, _ => rfl
  | a :: t, p, h => by
    have ha : a ∉ t := (List.nodup_cons.mp h).1
    have ht : t.Nodup := (List.nodup_cons.mp h).2
    by_cases hp : p a
    · have hf : List.filter p (a :: t) = a :: t.filter p := by simp [hp]
      rw [hf, List.foldl_cons, List.erase_cons_head, erase_foldl_eq_filter t p ht]
      simp [hp]
    · have hf : List.filter p (a :: t) = t.filter p := by simp [hp]
      rw [hf, foldl_erase_skip a (t.filter p) t
        (fun x hx hxa => ha (hxa ▸ (List.mem_filter.mp hx).1)),
        erase_foldl_eq_filter t p ht]
      simp [hp]

/-- `recalculate_castle_health` touches only the health fields. -/
theorem recalc_state (g : CastleGame) :
    (CastleGame.recalculateCastleHealth g).state = g.state := by
  unfold CastleGame.recalculateCastleHealth
  dsimp only
  split <;> rfl

/-- `add_player` never changes the session state tag. -/
theorem addPlayer_state (g : CastleGame) (sid : String) (profile : CastlePlayer) :
    ((g.addPlayer sid profile).1).state = g.state := by
  unfold CastleGame.addPlayer
  exact recalc_state _

/-- `remove_player` never changes the session state tag. -/
theorem removePlayer_state (g : CastleGame) (sid : String) :
    (g.removePlayer sid).state = g.state := rfl

/-- `start_wave` never changes the session state tag. -/
theorem startWave_state (g : CastleGame) (rng : ℕ → ℚ) :
    (g.startWave rng).state = g.state := by
  unfold CastleGame.startWave
  split <;> rfl

/-- The start-wave handler never changes the session state tag. -/
theorem cdStartWave_state (g : CastleGame) (rng : ℕ → ℚ) :
    (cdStartWave g rng).state = g.state := by
  unfold cdStartWave
  split
  · rfl
  · exact startWave_state g rng

/-- `place_tower` never changes the session state tag. -/
theorem placeTower_state (g : CastleGame) (rng : ℕ → ℚ) (sid : String) (plotId : ℤ)
    (towerType : String) : ((g.placeTower rng sid plotId towerType).1).state = g.state := by
  unfold CastleGame.placeTower
  dsimp only
  repeat' split
  all_goals rfl

/-- `sell_tower` never changes the session state tag. -/
theorem sellTower_state (g : CastleGame) (sid : String) (plotId : ℤ) :
    ((g.sellTower sid plotId).1).state = g.state := by
  unfold CastleGame.sellTower
  dsimp only
  repeat' split
  all_goals rfl

end CD

namespace CD

/-!
Claim C5.
-/

/-- C5 (amended): joining recomputes max castle health as 1000 plus the
sum of the roster's castle-health bonuses and, while the session is still
waiting, resets current castle health to the new max; a player leaving
performs no recomputation — both health fields keep their prior values
until the next join. -/
theorem c5_roster_health_recompute (g : CastleGame) (sid sid2 : String)
    (profile : CastlePlayer) :
    ((g.addPlayer sid profile).1.maxCastleHealth
      = 1000 + (((g.addPlayer sid profile).1.players.map
          (fun p => p.stats.castleHealthBonus)).sum))
    ∧ (g.state = GState.waiting →
        (g.addPlayer sid profile).1.castleHealth
          = (g.addPlayer sid profile).1.maxCastleHealth)
    ∧ (g.removePlayer sid2).maxCastleHealth = g.maxCastleHealth
    ∧ (g.removePlayer sid2).castleHealth = g.castleHealth := by
  refine ⟨?_, ?_, rfl, rfl⟩
  · unfold CastleGame.addPlayer CastleGame.recalculateCastleHealth
    dsimp only
    split <;> rfl
  · intro hw
    unfold CastleGame.addPlayer CastleGame.recalculateCastleHealth
    dsimp only
    rw [if_pos hw]

/-- C5 witness: a fortify player joins a fresh session (max 1050, health
reset to 1050). -/
theorem c5_roster_health_recompute_witness :
    ((mkCastleGame.addPlayer "a" fortifyProfile).1.maxCastleHealth
      = 1000 + (((mkCastleGame.addPlayer "a" fortifyProfile).1.players.map
          (fun p => p.stats.castleHealthBonus)).sum))
    ∧ (mkCastleGame.addPlayer "a" fortifyProfile).1.castleHealth
        = (mkCastleGame.addPlayer "a" fortifyProfile).1.maxCastleHealth := by
  have h := c5_roster_health_recompute mkCastleGame "a" "b" fortifyProfile
  exact ⟨h.1, h.2.1 rfl⟩

/-- C5 counterexample: after the fortify player (bonus 50) leaves, max
castle health stays at 1050 although the roster sum says 1000 — the
leave does not recompute, refuting the claim for roster-shrinking
changes. -/
theorem c5_counterexample :
    (((mkCastleGame.addPlayer "a" fortifyProfile).1.removePlayer "a").maxCastleHealth = 1050)
    ∧ 1000 + ((((mkCastleGame.addPlayer "a" fortifyProfile).1.removePlayer "a").players.map
        (fun p => p.stats.castleHealthBonus)).sum) = 1000 := by
  decide

/-!
Claim C2.
-/

/-- C2 (amended): the `waiting → playing` transition is performed by the
join handler (any join while the session is waiting promotes it);
`start_wave` — reachable through its handler only when the session is
already playing — never changes the state tag, and when no wave is in
progress it increments the wave number and installs the spawn schedule. -/
theorem c2_transitions (g : CastleGame) (sid : String) (profile : CastlePlayer)
    (rng : ℕ → ℚ) :
    (g.state = GState.waiting → (cdJoinGame sid profile g).state = GState.playing)
    ∧ (cdStartWave g rng).state = g.state
    ∧ (g.startWave rng).state = g.state
    ∧ (¬g.waveInProgress = true →
        (g.startWave rng).wave = g.wave + 1
        ∧ (g.startWave rng).waveInProgress = true
        ∧ (g.startWave rng).enemiesToSpawn
            = (generateWaveEnemies (g.wave + 1) rng g.rngIndex).1) := by
  refine ⟨?_, cdStartWave_state g rng, startWave_state g rng, ?_⟩
  · intro hw
    unfold cdJoinGame
    dsimp only
    rw [if_pos ((addPlayer_state g sid profile).trans hw)]
  · intro hnw
    unfold CastleGame.startWave
    rw [if_neg hnw]
    exact ⟨rfl, rfl, rfl⟩

/-- C2 witness: joining the fresh session starts it playing, and the
first start-wave command on the joined session moves it to wave 1. -/
theorem c2_transitions_witness :
    (cdJoinGame "p1" plainProfile mkCastleGame).state = GState.playing
    ∧ (joinedGame.startWave rng0).wave = 1 := by
  have h := c2_transitions mkCastleGame "p1" plainProfile rng0
  have h2 := c2_transitions joinedGame "p1" plainProfile rng0
  refine ⟨h.1 rfl, ?_⟩
  rw [(h2.2.2.2 (by decide)).1]
  decide

/-- C2 counterexample: on a fresh waiting session, a join alone flips the
state to playing without touching the wave counter or schedule, while a
start-wave command on the waiting session leaves it waiting — refuting
"waiting to playing only via an explicit start-wave command". -/
theorem c2_counterexample :
    mkCastleGame.state = GState.waiting
    ∧ (cdJoinGame "p1" plainProfile mkCastleGame).state = GState.playing
    ∧ (cdJoinGame "p1" plainProfile mkCastleGame).wave = 0
    ∧ (cdJoinGame "p1" plainProfile mkCastleGame).enemiesToSpawn = []
    ∧ (mkCastleGame.startWave rng0).state = GState.waiting
    ∧ (cdStartWave mkCastleGame rng0).state = GState.waiting := by
  decide

/-!
Claim C9.
-/

/-- C9: when castle health is ≤ 0 at the terminal check of an update on a
playing session, the session is `ended` when the call returns; end-game
results contain exactly one record per rostered player; and no operation
(update, start-wave and its handler, place/sell tower, add/remove player,
or the join handler) ever moves a session out of `ended`. -/
theorem c9_ended_terminal_absorbing (g : CastleGame) (now : ℤ) (Δ : ℚ) (rng : ℕ → ℚ)
    (sid : String) (plotId : ℤ) (towerType : String) (profile : CastlePlayer) :
    (g.state = GState.playing → (g.update now Δ rng).castleHealth ≤ 0 →
      (g.update now Δ rng).state = GState.ended)
    ∧ (g.endGame).2.length = g.players.length
    ∧ (g.state = GState.ended →
        (g.update now Δ rng).state = GState.ended
        ∧ (g.startWave rng).state = GState.ended
        ∧ (cdStartWave g rng).state = GState.ended
        ∧ ((g.placeTower rng sid plotId towerType).1).state = GState.ended
        ∧ ((g.sellTower sid plotId).1).state = GState.ended
        ∧ ((g.addPlayer sid profile).1).state = GState.ended
        ∧ (g.removePlayer sid).state = GState.ended
        ∧ (cdJoinGame sid profile g).state = GState.ended) := by
  refine ⟨?_, ?_, ?_⟩
  · intro hp hch
    unfold CastleGame.update at hch ⊢
    rw [if_neg (fun hc => hc hp)] at hch ⊢
    unfold endCheckPhase at hch ⊢
    by_cases hx : (waveCompletePhase (troopPhase Δ (healerPhase Δ (projectilePhase rng
        (towerPhase now rng (enemyPhase now Δ (spawnPhase Δ g))))))).castleHealth ≤ 0
    · rw [if_pos hx]
    · rw [if_neg hx] at hch
      exact absurd hch hx
  · unfold CastleGame.endGame
    simp
  · intro he
    have hne : g.state ≠ GState.playing := by rw [he]; decide
    have hup : (g.update now Δ rng).state = GState.ended := by
      unfold CastleGame.update
      rw [if_pos hne]
      exact he
    have hj : (cdJoinGame sid profile g).state = GState.ended := by
      unfold cdJoinGame
      dsimp only
      rw [if_neg (by rw [addPlayer_state g sid profile, he]; decide)]
      rw [addPlayer_state g sid profile]
      exact he
    exact ⟨hup, (startWave_state g rng).trans he, (cdStartWave_state g rng).trans he,
      (placeTower_state g rng sid plotId towerType).trans he,
      (sellTower_state g sid plotId).trans he,
      (addPlayer_state g sid profile).trans he,
      (removePlayer_state g sid).trans he, hj⟩

/-- C9 witness: a playing session with zero castle health ends in one
update; the ended session stays ended across a start-wave command and a
join. -/
theorem c9_ended_terminal_absorbing_witness :
    (zeroHealthGame.update 0 16 rng0).state = GState.ended
    ∧ (endedGame.startWave rng0).state = GState.ended
    ∧ (cdJoinGame "p9" plainProfile endedGame).state = GState.ended := by
  have h := c9_ended_terminal_absorbing zeroHealthGame 0 16 rng0 "p9" 0 "cannon" plainProfile
  have h2 := c9_ended_terminal_absorbing endedGame 0 16 rng0 "p9" 0 "cannon" plainProfile
  exact ⟨h.1 rfl (by decide), (h2.2.2 rfl).2.1, (h2.2.2 rfl).2.2.2.2.2.2.2⟩

end CD

namespace CD

/-!
Claim C8.
-/

/-- For every catalog archetype, the binary64 refund `int(cost * 0.6)`
coincides with the exact `⌊cost * 3/5⌋`. -/
theorem refund_floor (s : String) (td : TowerDef) (h : TOWER_TYPES s = some td) :
    pyInt (fmul (td.cost : ℚ) f06) = ⌊(td.cost : ℚ) * (3/5 : ℚ)⌋ := by
  unfold TOWER_TYPES at h
  split at h <;> first
    | exact Option.noConfusion h
    | (injection h with h2; subst h2; decide)

/-- C8: selling by the plot owner credits exactly
`floor(archetypeBaseCost * 0.6)` — the undiscounted base cost — removes
the tower, and frees the plot; selling a plot the caller does not own
fails with the not-owner error and changes nothing. -/
theorem c8_sell_refund_and_guard (g : CastleGame) (sid : String) (plotId : ℤ)
    (player : GamePlayer) (plot : Plot) (towerId : ℕ)
    (hp : playersGet g.players sid = some player)
    (hplot : g.plots.find? (fun p => p.id = plotId) = some plot)
    (ht : plot.tower = some towerId) :
    (∀ tower td, plot.owner = some sid →
      g.towers.find? (fun t => t.id = towerId) = some tower →
      TOWER_TYPES tower.type = some td →
      (g.sellTower sid plotId).2 = PyResult.ok (pyInt (fmul (td.cost : ℚ) f06))
      ∧ pyInt (fmul (td.cost : ℚ) f06) = ⌊(td.cost : ℚ) * (3/5 : ℚ)⌋
      ∧ (g.sellTower sid plotId).1.players
          = playersUpdate g.players sid
              (fun p => { p with gold := p.gold + pyInt (fmul (td.cost : ℚ) f06) })
      ∧ (g.sellTower sid plotId).1.towers = g.towers.filter (fun t => t.id ≠ tower.id)
      ∧ (g.sellTower sid plotId).1.plots
          = setFirst (fun p => p.id = plotId)
              (fun p => { p with tower := none, owner := none }) g.plots)
    ∧ (plot.owner ≠ some sid → g.sellTower sid plotId = (g, PyResult.err "Not your tower")) := by
  constructor
  · intro tower td how htw htd
    unfold CastleGame.sellTower
    rw [hp]
    dsimp only
    rw [hplot]
    dsimp only
    rw [ht]
    dsimp only
    rw [if_neg (not_not_intro how)]
    rw [htw]
    dsimp only
    rw [htd]
    exact ⟨rfl, refund_floor tower.type td htd, rfl, rfl, rfl⟩
  · intro hno
    unfold CastleGame.sellTower
    rw [hp]
    dsimp only
    rw [hplot]
    dsimp only
    rw [ht]
    dsimp only
    rw [if_pos hno]

/-- C8 witness: "p1" sells its cannon on plot 0 for 60 gold; "p2" cannot
sell it. -/
theorem c8_sell_refund_and_guard_witness :
    (sellGame.sellTower "p1" 0).2 = PyResult.ok 60
    ∧ sellGame.sellTower "p2" 0 = (sellGame, PyResult.err "Not your tower") := by
  have h := c8_sell_refund_and_guard sellGame "p1" 0 (mkGamePlayer "p1" plainProfile)
    soldPlot 3 (by decide) (by decide) (by decide)
  have h2 := c8_sell_refund_and_guard sellGame "p2" 0 (mkGamePlayer "p2" plainProfile)
    soldPlot 3 (by decide) (by decide) (by decide)
  refine ⟨?_, h2.2 (by decide)⟩
  rw [(h.1 soldTower cannonDef (by decide) (by decide) (by decide)).1]
  decide

end CD

namespace CD

/-!
Claim C7.
-/

/-- C7 (amended): every validation failure of `place_tower` — occupied
plot, unknown plot, unknown tower type, level gate, insufficient gold —
returns the reported error with the session unchanged; success debits
exactly `int(cost * towerCostMultiplier)` as computed in binary64 (which
can differ by one from `⌊cost * multiplier⌋` at rounding boundaries),
increments the builder's tower counter, and binds exactly one new tower
to exactly that plot. -/
theorem c7_place_tower (g : CastleGame) (rng : ℕ → ℚ) (sid : String) (plotId : ℤ)
    (towerType : String) (player : GamePlayer)
    (hp : playersGet g.players sid = some player) :
    (∀ plot, g.plots.find? (fun p => p.id = plotId) = some plot → plot.tower.isSome →
      g.placeTower rng sid plotId towerType = (g, PyResult.err "Plot already occupied"))
    ∧ (g.plots.find? (fun p => p.id = plotId) = none →
        g.placeTower rng sid plotId towerType = (g, PyResult.err "Plot not found"))
    ∧ (∀ plot, g.plots.find? (fun p => p.id = plotId) = some plot → plot.tower = none →
        TOWER_TYPES towerType = none →
        g.placeTower rng sid plotId towerType = (g, PyResult.err "Invalid tower type"))
    ∧ (∀ plot td, g.plots.find? (fun p => p.id = plotId) = some plot → plot.tower = none →
        TOWER_TYPES towerType = some td → player.profile.level < td.unlockLevel →
        g.placeTower rng sid plotId towerType
          = (g, PyResult.err ("Requires level " ++ toString td.unlockLevel)))
    ∧ (∀ plot td, g.plots.find? (fun p => p.id = plotId) = some plot → plot.tower = none →
        TOWER_TYPES towerType = some td → ¬player.profile.level < td.unlockLevel →
        player.gold < pyInt (fmul (td.cost : ℚ) player.stats.towerCostMultiplier) →
        g.placeTower rng sid plotId towerType = (g, PyResult.err "Not enough gold"))
    ∧ (∀ plot td, g.plots.find? (fun p => p.id = plotId) = some plot → plot.tower = none →
        TOWER_TYPES towerType = some td → ¬player.profile.level < td.unlockLevel →
        ¬player.gold < pyInt (fmul (td.cost : ℚ) player.stats.towerCostMultiplier) →
        (g.placeTower rng sid plotId towerType).2
          = PyResult.ok { id := g.nextId, type := towerType, x := plot.x, y := plot.y,
                          plotId := plotId, ownerId := sid, ownerName := player.name }
        ∧ (g.placeTower rng sid plotId towerType).1.players
            = playersUpdate g.players sid (fun p =>
                { p with
                  gold := p.gold - pyInt (fmul (td.cost : ℚ) player.stats.towerCostMultiplier),
                  towersBuilt := p.towersBuilt + 1 })
        ∧ (g.placeTower rng sid plotId towerType).1.towers
            = g.towers ++ [{ id := g.nextId, type := towerType, x := plot.x, y := plot.y,
                             plotId := plotId, ownerId := sid, ownerName := player.name }]
        ∧ (g.placeTower rng sid plotId towerType).1.plots
            = setFirst (fun p => p.id = plotId)
                (fun p => { p with tower := some g.nextId, owner := some sid }) g.plots
        ∧ (towerType ≠ "barracks" →
            (g.placeTower rng sid plotId towerType).1.troops = g.troops)) := by
  refine ⟨?_, ?_, ?_, ?_, ?_, ?_⟩
  · intro plot hplot hocc
    unfold CastleGame.placeTower
    rw [hp]
    try dsimp only
    rw [hplot]
    try dsimp only
    rw [if_pos hocc]
  · intro hplot
    unfold CastleGame.placeTower
    rw [hp]
    try dsimp only
    rw [hplot]
    try rfl
  · intro plot hplot hfree htd
    unfold CastleGame.placeTower
    rw [hp]
    try dsimp only
    rw [hplot]
    try dsimp only
    rw [hfree]
    try dsimp only
    rw [htd]
    try rfl
  · intro plot td hplot hfree htd hlv
    unfold CastleGame.placeTower
    rw [hp]
    try dsimp only
    rw [hplot]
    try dsimp only
    rw [hfree]
    try dsimp only
    rw [htd]
    try dsimp only
    rw [if_pos hlv]
    try rfl
  · intro plot td hplot hfree htd hlv hgold
    unfold CastleGame.placeTower
    rw [hp]
    try dsimp only
    rw [hplot]
    try dsimp only
    rw [hfree]
    try dsimp only
    rw [htd]
    try dsimp only
    rw [if_neg hlv, if_pos hgold]
    try rfl
  · intro plot td hplot hfree htd hlv hgold
    unfold CastleGame.placeTower
    rw [hp]
    try dsimp only
    rw [hplot]
    try dsimp only
    rw [hfree]
    try dsimp only
    rw [htd]
    try dsimp only
    rw [if_neg hlv, if_neg hgold]
    by_cases hb : towerType = "barracks"
    · rw [if_pos hb]
      try dsimp only
      exact ⟨rfl, rfl, rfl, rfl, fun hnb => absurd hb hnb⟩
    · rw [if_neg hb]
      exact ⟨rfl, rfl, rfl, rfl, fun _ => rfl⟩

/-- C7 witness: the discount player successfully places a cannon (tower
counter 1, gold debited as the truncated binary64 product), and placing
on the occupied plot 0 of the sell scenario fails unchanged. -/
theorem c7_place_tower_witness :
    (discountGame.placeTower rng0 "pd" 0 "cannon").1.players
      = playersUpdate discountGame.players "pd" (fun p =>
          { p with
            gold := p.gold - pyInt (fmul ((cannonDef.cost : ℤ) : ℚ)
              (mkGamePlayer "pd" discountProfile).stats.towerCostMultiplier),
            towersBuilt := p.towersBuilt + 1 })
    ∧ sellGame.placeTower rng0 "p1" 0 "cannon"
        = (sellGame, PyResult.err "Plot already occupied") := by
  have h := c7_place_tower discountGame rng0 "pd" 0 "cannon"
    (mkGamePlayer "pd" discountProfile) (by decide)
  have h2 := c7_place_tower sellGame rng0 "p1" 0 "cannon"
    (mkGamePlayer "p1" plainProfile) (by decide)
  have hs := h.2.2.2.2.2 ⟨0, 50, 180, none, none⟩ cannonDef
    (by decide) (by decide) (by decide) (by decide) (by decide)
  exact ⟨hs.2.1, h2.1 ⟨0, 50, 180, some 3, some "p1"⟩ (by decide) (by decide)⟩

/-- C7 counterexample: with the one-level discount multiplier (the
binary64 value of 0.98), placing a cannon debits 98 gold (200 → 102)
although `⌊100 * multiplier⌋ = 97` — the debit is the truncated binary64
product, not the exact floor. -/
theorem c7_counterexample :
    (discountGame.placeTower rng0 "pd" 0 "cannon").2 = PyResult.ok discountPlaced
    ∧ ((discountGame.placeTower rng0 "pd" 0 "cannon").1.players.map (fun p => p.gold)) = [102]
    ∧ ⌊(100 : ℚ) * m098⌋ = 97
    ∧ ¬((200 : ℤ) - 102 = 97) := by
  decide

end CD

namespace CD

/-!
Claim C6.
-/

/-- C6 (amended): spawn health and reward are the binary64 products
truncated (`int(base * (1 + (W-1)*0.15))`, `int(base * (1 + W*0.1))`).
For every archetype and every wave 1..60 this agrees with the exact
floors `⌊H*(1+(W-1)*0.15)⌋` and `⌊R*(1+W*0.1)⌋` except where the exact
product is an integer, in which case the rounded product can land one
below it.  The spec example holds: a grunt spawned at wave 5 has health
80 (and reward 15). -/
theorem c6_spawn_scaling :
    spawnHealth "grunt" 5 = some 80
    ∧ spawnReward "grunt" 5 = some 15
    ∧ (∀ W ≤ (60 : ℕ), 1 ≤ W → ∀ name ∈ enemyTypeNames,
        ((spawnHealth name W = floorHealth name W ∨
          (healthIntegral name W ∧ spawnHealth name W = floorHealthPred name W))
        ∧ (spawnReward name W = floorReward name W ∨
          (rewardIntegral name W ∧ spawnReward name W = floorRewardPred name W)))) := by
  refine ⟨by decide, by decide, by decide⟩

/-- C6 witness: the bound theorem applied at wave 5 for the grunt and at
wave 2 for the tank (the integral boundary case). -/
theorem c6_spawn_scaling_witness :
    ((spawnHealth "grunt" 5 = floorHealth "grunt" 5 ∨
      (healthIntegral "grunt" 5 ∧ spawnHealth "grunt" 5 = floorHealthPred "grunt" 5))
    ∧ (spawnReward "grunt" 5 = floorReward "grunt" 5 ∨
      (rewardIntegral "grunt" 5 ∧ spawnReward "grunt" 5 = floorRewardPred "grunt" 5)))
    ∧ ((spawnHealth "tank" 2 = floorHealth "tank" 2 ∨
      (healthIntegral "tank" 2 ∧ spawnHealth "tank" 2 = floorHealthPred "tank" 2))
    ∧ (spawnReward "tank" 2 = floorReward "tank" 2 ∨
      (rewardIntegral "tank" 2 ∧ spawnReward "tank" 2 = floorRewardPred "tank" 2))) :=
  ⟨c6_spawn_scaling.2.2 5 (by decide) (by decide) "grunt" (by decide),
   c6_spawn_scaling.2.2 2 (by decide) (by decide) "tank" (by decide)⟩

/-- C6 counterexample: a tank (base health 200) spawned at wave 2 has
health 229 in the code (binary64 product 229.99999999999997 truncated),
but the claim's `⌊200 * 1.15⌋` is 230. -/
theorem c6_counterexample :
    spawnHealth "tank" 2 = some 229
    ∧ floorHealth "tank" 2 = some 230
    ∧ spawnHealth "tank" 2 ≠ floorHealth "tank" 2 := by
  decide

/-!
Claim C1.
-/

/-- The chain of single-roll re-checks in the source equals the
last-passing-candidate formulation of the claim. -/
theorem slotRollType_eq_spec (wave : ℕ) (roll : ℚ) :
    slotRollType wave roll = specSlotType wave roll := by
  unfold slotRollType specSlotType waveCandidates
  by_cases h7 : 15 ≤ wave ∧ roll < f01
  · simp [List.find?, h7]
  · by_cases h6 : 12 ≤ wave ∧ roll < f008
    · simp [List.find?, h7, h6]
    · by_cases h5 : 10 ≤ wave ∧ roll < f025
      · simp [List.find?, h7, h6, h5]
      · by_cases h4 : 8 ≤ wave ∧ roll < f012
        · simp [List.find?, h7, h6, h5, h4]
        · by_cases h3 : 7 ≤ wave ∧ roll < f01
          · have h15 : ¬15 ≤ wave := fun hx => h7 ⟨hx, h3.2⟩
            simp [List.find?, h7, h6, h5, h4, h3, h15]
          · by_cases h2 : 5 ≤ wave ∧ roll < f015
            · simp [List.find?, h7, h6, h5, h4, h3, h2]
            · by_cases h1 : 3 ≤ wave ∧ roll < f02
              · simp [List.find?, h7, h6, h5, h4, h3, h2, h1]
              · simp [List.find?, h7, h6, h5, h4, h3, h2, h1]

set_option maxRecDepth 40000 in
/-- C1 (amended): for every wave ≥ 1 and every roll sequence, the
generated list is the boss/healer prepend on multiples of 5 (boss at
delay 0, `⌊W/2⌋` healers at `500 + i*300`), then
`5 + int(W*1.5)` regular slots — the binary64 product truncated — at
`i*400`, whose type is decided by re-checking the slot's single roll in
the fixed order, the last passing check winning, then 20 swarm entries at
`baseCount*400 + i*150` on multiples of 7; and for every wave up to 1000
the truncated binary64 product agrees with the claim's `⌊1.5*W⌋` (it does
not in general: see the counterexample). -/
theorem c1_wave_schedule :
    (∀ (wave : ℕ), 1 ≤ wave → ∀ (rng : ℕ → ℚ) (ri : ℕ),
      (generateWaveEnemies wave rng ri).1 =
        (if wave % 5 = 0 then
          (⟨"boss", 0⟩ : SpawnEntry) ::
            (List.range (wave / 2)).map (fun i => ⟨"healer", 500 + (i : ℤ) * 300⟩)
        else [])
        ++ (List.range (5 + (pyInt (fmul (roundNE (wave : ℚ)) f15)).toNat)).map
            (fun i => ⟨specSlotType wave (rng (ri + i)), (i : ℤ) * 400⟩)
        ++ (if wave % 7 = 0 then
            (List.range 20).map
              (fun i =>
                ⟨"swarm",
                 ((5 + (pyInt (fmul (roundNE (wave : ℚ)) f15)).toNat : ℕ) : ℤ) * 400
                   + (i : ℤ) * 150⟩)
          else []))
    ∧ (∀ W ≤ (1000 : ℕ), (pyInt (fmul (roundNE (W : ℚ)) f15)).toNat = 3 * W / 2) := by
  constructor
  · intro wave hw rng ri
    have h0 : 0 < wave := hw
    unfold generateWaveEnemies
    simp only [slotRollType_eq_spec, eq_true h0, and_true]
    congr 1
  · decide

/-- C1 witness: the shape part at wave 35 (a multiple of both 5 and 7)
with the all-zero roll stream, and the floor agreement at wave 35. -/
theorem c1_wave_schedule_witness :
    ((generateWaveEnemies 35 rng0 0).1 =
      (if 35 % 5 = 0 then
        (⟨"boss", 0⟩ : SpawnEntry) ::
          (List.range (35 / 2)).map (fun i => ⟨"healer", 500 + (i : ℤ) * 300⟩)
      else [])
      ++ (List.range (5 + (pyInt (fmul (roundNE ((35 : ℕ) : ℚ)) f15)).toNat)).map
          (fun i => ⟨specSlotType 35 (rng0 (0 + i)), (i : ℤ) * 400⟩)
      ++ (if 35 % 7 = 0 then
          (List.range 20).map
            (fun i =>
              ⟨"swarm",
               ((5 + (pyInt (fmul (roundNE ((35 : ℕ) : ℚ)) f15)).toNat : ℕ) : ℤ) * 400
                 + (i : ℤ) * 150⟩)
        else []))
    ∧ (pyInt (fmul (roundNE ((35 : ℕ) : ℚ)) f15)).toNat = 3 * 35 / 2 :=
  ⟨c1_wave_schedule.1 35 (by decide) rng0 0, c1_wave_schedule.2 35 (by decide)⟩

/-- C1 counterexample: at wave 3002399751580333 the binary64 product
`wave * 1.5 = 4503599627370499.5` ties to the even 4503599627370500, one
above `⌊1.5*wave⌋ = 4503599627370499` — so the code generates (observed
through the stream index advanced once per regular slot) one more regular
slot than the claim's `5 + ⌊1.5*wave⌋`. -/
theorem c1_counterexample :
    (generateWaveEnemies 3002399751580333 rng0 0).2 = 5 + 4503599627370500
    ∧ 5 + 3 * 3002399751580333 / 2 = 5 + 4503599627370499
    ∧ (generateWaveEnemies 3002399751580333 rng0 0).2
        ≠ 0 + (5 + 3 * 3002399751580333 / 2) := by
  refine ⟨by decide, by decide, by decide⟩

end CD

namespace CD

/-!
Claim C3: support lemmas.
-/

/-- Binary64 rounding preserves nonnegativity. -/
theorem roundNE_nonneg (q : ℚ) (h : 0 ≤ q) : 0 ≤ roundNE q := by
  unfold roundNE
  dsimp only
  split
  · exact le_refl 0
  · rw [if_neg (Int.not_lt.mpr (Rat.num_nonneg.mpr h))]
    split <;> (rw [Rat.mkRat_eq_div]; positivity)

/-- Binary64 rounding preserves nonpositivity. -/
theorem roundNE_nonpos (q : ℚ) (h : q ≤ 0) : roundNE q ≤ 0 := by
  unfold roundNE
  dsimp only
  split
  · exact le_refl 0
  · rename_i hp
    have hlt : q.num < 0 := by
      rcases lt_or_eq_of_le (Rat.num_nonpos.mpr h) with hlt | heq
      · exact hlt
      · exact absurd (by simp [heq]) hp
    rw [if_pos hlt]
    have : ∀ v : ℚ, 0 ≤ v → -v ≤ 0 := fun v hv => neg_nonpos.mpr hv
    apply this
    split <;> (rw [Rat.mkRat_eq_div]; positivity)

/-- Products of nonnegative floats are nonnegative. -/
theorem fmul_nonneg {x y : ℚ} (hx : 0 ≤ x) (hy : 0 ≤ y) : 0 ≤ fmul x y :=
  roundNE_nonneg _ (mul_nonneg hx hy)

/-- Quotients of nonnegative floats are nonnegative. -/
theorem fdiv_nonneg {x y : ℚ} (hx : 0 ≤ x) (hy : 0 ≤ y) : 0 ≤ fdiv x y := by
  unfold fdiv
  split
  · exact le_refl 0
  · exact roundNE_nonneg _ (div_nonneg hx hy)

/-- Subtracting a nonnegative float from a nonpositive one stays
nonpositive. -/
theorem fsub_nonpos {x y : ℚ} (hx : x ≤ 0) (hy : 0 ≤ y) : fsub x y ≤ 0 :=
  roundNE_nonpos _ (by linarith)

/-- The enemy pass body never changes an enemy's identity. -/
theorem enemyStep_id (path : List Point) (wave : ℕ) (now : ℤ) (Δ : ℚ) (e : Enemy) :
    (enemyStep path wave now Δ e).1.id = e.id := by
  unfold enemyStep
  dsimp only
  repeat' split
  all_goals rfl

/-- A stunned enemy is skipped entirely by the enemy pass. -/
theorem enemyStep_stunned (path : List Point) (wave : ℕ) (now : ℤ) (Δ : ℚ) (e : Enemy)
    (h : now < e.stunnedUntil) : enemyStep path wave now Δ e = (e, false, 0) := by
  unfold enemyStep
  rw [if_pos h]

/-- A non-stunned enemy whose health is non-positive when the pass
examines it is marked for removal (burn only pushes health further
down; reaching the castle also marks). -/
theorem enemyStep_marked_of_dead (path : List Point) (wave : ℕ) (now : ℤ) (Δ : ℚ)
    (e : Enemy) (hstun : e.stunnedUntil ≤ now) (hdead : e.health ≤ 0)
    (hbd : 0 ≤ e.burnDamage) (hΔ : 0 ≤ Δ) :
    (enemyStep path wave now Δ e).2.1 = true := by
  have hdmg : 0 ≤ fmul e.burnDamage (fdiv Δ 1000) :=
    fmul_nonneg hbd (fdiv_nonneg hΔ (by norm_num))
  have hburn : fsub e.health (fmul e.burnDamage (fdiv Δ 1000)) ≤ 0 := fsub_nonpos hdead hdmg
  unfold enemyStep
  rw [if_neg (not_lt.mpr hstun)]
  dsimp only
  split_ifs <;> (try rfl) <;> split <;> (try rfl) <;>
    split_ifs <;> first
      | rfl
      | exact absurd hburn (by assumption)
      | exact absurd hdead (by assumption)

/-- The sweep of marked elements (a `list.remove` loop) equals filtering
the marked ones out, provided the mapped values are distinct. -/
theorem foldl_erase_map_filter {α β : Type} [DecidableEq β] (f : α → β) (p : α → Bool) :
    ∀ (es : List α), ((es.map f).Nodup) →
      ((es.filter p).map f).foldl (fun l b => l.erase b) (es.map f)
        = (es.filter (fun a => !p a)).map f
  | [], _ => rfl
  | a :: t, h => by
    have ha : f a ∉ t.map f := (List.nodup_cons.mp (by simpa using h)).1
    have ht : (t.map f).Nodup := (List.nodup_cons.mp (by simpa using h)).2
    by_cases hp : p a
    · have hf : List.filter p (a :: t) = a :: t.filter p := by simp [hp]
      rw [hf, List.map_cons, List.map_cons, List.foldl_cons, List.erase_cons_head,
        foldl_erase_map_filter f p t ht]
      simp [hp]
    · have hf : List.filter p (a :: t) = t.filter p := by simp [hp]
      have hne : ∀ x ∈ (t.filter p).map f, x ≠ f a := by
        intro x hx hxa
        rcases List.mem_map.mp hx with ⟨b, hb, hbx⟩
        exact ha (hxa ▸ hbx ▸ List.mem_map_of_mem f (List.mem_of_mem_filter hb))
      rw [hf, List.map_cons, foldl_erase_skip (f a) ((t.filter p).map f) (t.map f) hne,
        foldl_erase_map_filter f p t ht]
      simp [hp]

end CD

namespace CD

/-- Setting an index to a value with the same image leaves the mapped
list unchanged. -/
theorem map_set_same {α β : Type} (f : α → β) :
    ∀ (l : List α) (i : ℕ) (b : α), (∀ a, l.get? i = some a → f b = f a) →
      (l.set i b).map f = l.map f
  | [], _, _, _ => rfl
  | a :: t, 0, b, h => by simp [List.set, h a rfl]
  | a :: t, i + 1, b, h => by
    simp only [List.set, List.map_cons]
    rw [map_set_same f t i b (fun x hx => h x hx)]

/-- Mapping an id-preserving mutation over the enemy list preserves the
id image. -/
theorem map_preserve_ids {g : Enemy → Enemy} (hg : ∀ e, (g e).id = e.id) (es : List Enemy) :
    ((es.map g).map (fun e => e.id)) = es.map (fun e => e.id) := by
  rw [List.map_map]
  exact List.map_congr_left (fun e _ => hg e)

/-- A first-wins scan over indexed enemies only ever returns a pair it
saw, so the returned index addresses the returned enemy. -/
theorem scanFold_mem (esIn : List Enemy)
    (f : (Option (ℕ × Enemy) × ℚ) → (ℕ × Enemy) → (Option (ℕ × Enemy) × ℚ))
    (hf : ∀ acc ie, (f acc ie).1 = acc.1 ∨ (f acc ie).1 = some ie) :
    ∀ (l : List (ℕ × Enemy)) (acc : Option (ℕ × Enemy) × ℚ),
      (∀ ie ∈ l, esIn.get? ie.1 = some ie.2) →
      (∀ i e, acc.1 = some (i, e) → esIn.get? i = some e) →
      ∀ i e, (l.foldl f acc).1 = some (i, e) → esIn.get? i = some e
  | [], _, _, hacc => hacc
  | ie :: l, acc, hl, hacc => by
    apply scanFold_mem esIn f hf l (f acc ie) (fun x hx => hl x (List.mem_cons_of_mem _ hx))
    intro i e hfe
    rcases hf acc ie with h | h
    · exact hacc i e (h ▸ hfe)
    · rw [h] at hfe
      injection hfe with hh
      have hmem := hl ie (List.mem_cons_self _ _)
      rw [hh] at hmem
      exact hmem

/-- Every pair of `l.enum` addresses its own element. -/
theorem enum_get? {α : Type} (l : List α) : ∀ ie ∈ l.enum, l.get? ie.1 = some ie.2 := by
  intro ie hie
  rw [List.get?_eq_getElem?]
  exact List.mem_enum_iff_getElem?.mp hie

/-- The tower target scan returns an index addressing the returned
enemy. -/
theorem findTarget_mem (ttype : String) (tx ty range : ℚ) (es : List Enemy) (i : ℕ) (e : Enemy)
    (h : (findTarget ttype tx ty range es).1 = some (i, e)) : es.get? i = some e := by
  unfold findTarget at h
  refine scanFold_mem es _ ?_ es.enum (none, range) (enum_get? es) (by intro _ _ hx; cases hx) i e h
  intro acc ie
  dsimp only
  split_ifs <;> simp

/-- The enemy pass is mark-then-sweep: with distinct ids, the surviving
list is exactly the processed list with the marked entries filtered out —
removal never happens mid-scan. -/
theorem enemyPass_eq_filter (path : List Point) (wave : ℕ) (now : ℤ) (Δ : ℚ)
    (es : List Enemy) (hnd : (es.map (fun e => e.id)).Nodup) :
    (enemyPass path wave now Δ es).1
      = ((es.map (enemyStep path wave now Δ)).filter (fun s => !s.2.1)).map (fun s => s.1) := by
  unfold enemyPass
  dsimp only
  have hmm : (es.map (enemyStep path wave now Δ)).map (fun s => s.1)
      = es.map (fun e => (enemyStep path wave now Δ e).1) := by
    rw [List.map_map]; rfl
  have hfm : ∀ (q : (Enemy × Bool × ℤ) → Bool),
      (es.map (enemyStep path wave now Δ)).filter q
        = (es.filter (fun e => q (enemyStep path wave now Δ e))).map
            (enemyStep path wave now Δ) := by
    intro q
    rw [List.filter_map]
    rfl
  have hids : (es.map (fun e => (enemyStep path wave now Δ e).1)).map (fun e => e.id)
      = es.map (fun e => e.id) := by
    rw [List.map_map]
    exact List.map_congr_left (fun e _ => enemyStep_id path wave now Δ e)
  have hnd2 : (es.map (fun e => (enemyStep path wave now Δ e).1)).Nodup :=
    List.Nodup.of_map (fun e => e.id) (hids ▸ hnd)
  rw [hfm, hfm, List.map_map, List.map_map]
  have := foldl_erase_map_filter (fun e => (enemyStep path wave now Δ e).1)
    (fun e => (enemyStep path wave now Δ e).2.1) es hnd2
  simpa [Function.comp] using this

end CD

namespace CD

/-- One tower step leaves the enemy id image unchanged (status effects
mutate the scanned target in place). -/
theorem towerStep_enemy_ids (now : ℤ) (rng : ℕ → ℚ) (allT : List Tower)
    (acc : TowerAcc) (t : Tower) :
    ((towerStep now rng allT acc t).enemies).map (fun e => e.id)
      = acc.enemies.map (fun e => e.id) := by
  unfold towerStep
  dsimp only
  split
  · rfl
  · split
    · rfl
    · split
      · split <;> rfl
      · split
        · rfl
        · split
          · split
            · rfl
            · rename_i ti target heq
              dsimp only
              apply map_set_same
              intro a ha
              have hmem := findTarget_mem t.type t.x t.y _ acc.enemies ti target heq
              rw [hmem] at ha
              injection ha with ha
              subst ha
              split_ifs <;> rfl
          · rfl

/-- The tower pass leaves the enemy id image unchanged. -/
theorem towerFold_enemy_ids (now : ℤ) (rng : ℕ → ℚ) (allT : List Tower) :
    ∀ (ts : List Tower) (acc : TowerAcc),
      ((ts.foldl (towerStep now rng allT) acc).enemies).map (fun e => e.id)
        = acc.enemies.map (fun e => e.id)
  | [], _ => rfl
  | t :: ts, acc => by
    rw [List.foldl_cons, towerFold_enemy_ids now rng allT ts _,
      towerStep_enemy_ids now rng allT acc t]

/-- One projectile step leaves the enemy id image unchanged (impacts and
splash mutate health in place). -/
theorem projStep_enemy_ids (rng : ℕ → ℚ) (acc : ProjAcc) (p : Projectile) :
    ((projStep rng acc p).enemies).map (fun e => e.id) = acc.enemies.map (fun e => e.id) := by
  unfold projStep
  dsimp only
  split
  · rfl
  · rename_i it heq
    obtain ⟨ti, target⟩ := it
    have hmem : acc.enemies.get? ti = some target := by
      have h1 := List.mem_of_find?_eq_some heq
      rw [List.get?_eq_getElem?]
      exact List.mem_enum_iff_getElem?.mp h1
    have hset : (acc.enemies.set ti { target with health := fsub target.health p.damage }).map
        (fun e => e.id) = acc.enemies.map (fun e => e.id) := by
      apply map_set_same
      intro a ha
      rw [hmem] at ha
      injection ha with ha
      subst ha
      rfl
    have hsplash : ∀ (md : TowerDef) (l : List Enemy),
        ((l.map (fun e =>
          if e.id = target.id then e
          else if fdist (fsub e.x target.x) (fsub e.y target.y) ≤ md.splashRadius then
            { e with health := fsub e.health (fmul p.damage f05) }
          else e)).map (fun e => e.id)) = l.map (fun e => e.id) := by
      intro md l
      apply map_preserve_ids
      intro e
      split_ifs <;> rfl
    repeat' split
    all_goals simp only [hset, hsplash]
    all_goals rfl

/-- The projectile pass leaves the enemy id image unchanged. -/
theorem projFold_enemy_ids (rng : ℕ → ℚ) :
    ∀ (ps : List Projectile) (acc : ProjAcc),
      ((ps.foldl (projStep rng) acc).enemies).map (fun e => e.id)
        = acc.enemies.map (fun e => e.id)
  | [], _ => rfl
  | p :: ps, acc => by
    rw [List.foldl_cons, projFold_enemy_ids rng ps _, projStep_enemy_ids rng acc p]

/-- Healing mutates health in place: the id image is unchanged. -/
theorem healerFold_enemy_ids (Δ : ℚ) :
    ∀ (l : List ℕ) (es : List Enemy),
      ((l.foldl (fun cur i =>
          match cur.get? i with
          | none => cur
          | some e => if e.heals then healOthers Δ e cur else cur) es).map (fun e => e.id))
        = es.map (fun e => e.id)
  | [], _ => rfl
  | i :: l, es => by
    rw [List.foldl_cons, healerFold_enemy_ids Δ l _]
    split
    · rfl
    · split
      · unfold healOthers
        apply map_preserve_ids
        intro o
        split_ifs <;> rfl
      · rfl

/-- One troop step leaves the enemy id image unchanged. -/
theorem troopStep_enemy_ids (Δ : ℚ) (acc : TroopAcc) (tr : Troop) :
    ((troopStep Δ acc tr).enemies).map (fun e => e.id) = acc.enemies.map (fun e => e.id) := by
  unfold troopStep
  dsimp only
  split
  · rfl
  · rename_i it heq
    split
    · dsimp only
      apply map_set_same
      intro a ha
      have hmem := scanFold_mem acc.enemies _ ?hf acc.enemies.enum (none, (200 : ℚ))
        (enum_get? acc.enemies) (by intro _ _ hx; cases hx) it.1 it.2 (by rw [heq])
      case hf =>
        intro a2 ie
        dsimp only
        split_ifs <;> simp
      rw [hmem] at ha
      injection ha with ha
      subst ha
      rfl
    · rfl

/-- The troop pass leaves the enemy id image unchanged. -/
theorem troopFold_enemy_ids (Δ : ℚ) :
    ∀ (ts : List Troop) (acc : TroopAcc),
      ((ts.foldl (troopStep Δ) acc).enemies).map (fun e => e.id)
        = acc.enemies.map (fun e => e.id)
  | [], _ => rfl
  | t :: ts, acc => by
    rw [List.foldl_cons, troopFold_enemy_ids Δ ts _, troopStep_enemy_ids Δ acc t]

end CD

namespace CD

/-- The terminal check does not touch the enemy list. -/
theorem endCheckPhase_enemies (g : CastleGame) : (endCheckPhase g).enemies = g.enemies := by
  unfold endCheckPhase
  split <;> rfl

/-- The wave-complete check does not touch the enemy list. -/
theorem waveCompletePhase_enemies (g : CastleGame) :
    (waveCompletePhase g).enemies = g.enemies := by
  unfold waveCompletePhase
  split <;> rfl

/-- The troop pass preserves the enemy id image. -/
theorem troopPhase_enemy_ids (Δ : ℚ) (g : CastleGame) :
    ((troopPhase Δ g).enemies).map (fun e => e.id) = g.enemies.map (fun e => e.id) := by
  unfold troopPhase
  exact troopFold_enemy_ids Δ g.troops _

/-- The healer pass preserves the enemy id image. -/
theorem healerPhase_enemy_ids (Δ : ℚ) (g : CastleGame) :
    ((healerPhase Δ g).enemies).map (fun e => e.id) = g.enemies.map (fun e => e.id) := by
  unfold healerPhase
  exact healerFold_enemy_ids Δ _ _

/-- The projectile pass preserves the enemy id image. -/
theorem projectilePhase_enemy_ids (rng : ℕ → ℚ) (g : CastleGame) :
    ((projectilePhase rng g).enemies).map (fun e => e.id) = g.enemies.map (fun e => e.id) := by
  unfold projectilePhase
  exact projFold_enemy_ids rng g.projectiles _

/-- The tower pass preserves the enemy id image. -/
theorem towerPhase_enemy_ids (now : ℤ) (rng : ℕ → ℚ) (g : CastleGame) :
    ((towerPhase now rng g).enemies).map (fun e => e.id) = g.enemies.map (fun e => e.id) := by
  unfold towerPhase
  exact towerFold_enemy_ids now rng g.towers g.towers _

/-- Spawning does not change the path. -/
theorem spawnPhase_path (Δ : ℚ) (g : CastleGame) : (spawnPhase Δ g).path = g.path := by
  unfold spawnPhase
  split <;> rfl

/-- Spawning does not change the wave number. -/
theorem spawnPhase_wave (Δ : ℚ) (g : CastleGame) : (spawnPhase Δ g).wave = g.wave := by
  unfold spawnPhase
  split <;> rfl

/-- C3 (amended): the enemy pass is mark-then-sweep — every enemy of the
post-spawn list is examined against that list and marked entries are
removed only after the full pass; every enemy that is not stunned and has
health ≤ 0 when examined is gone when update returns; but a stunned enemy
is skipped entirely, so a stunned enemy at health ≤ 0 survives the
update. -/
theorem c3_enemy_sweep (g : CastleGame) (now : ℤ) (Δ : ℚ) (rng : ℕ → ℚ)
    (hg : g.state = GState.playing) (hΔ : 0 ≤ Δ)
    (hnd : (((spawnPhase Δ g).enemies).map (fun e => e.id)).Nodup) :
    ((enemyPass g.path g.wave now Δ ((spawnPhase Δ g).enemies)).1
      = ((((spawnPhase Δ g).enemies).map (enemyStep g.path g.wave now Δ)).filter
          (fun s => !s.2.1)).map (fun s => s.1))
    ∧ (∀ e ∈ (spawnPhase Δ g).enemies, e.stunnedUntil ≤ now → e.health ≤ 0 →
        0 ≤ e.burnDamage → ∀ e2 ∈ (g.update now Δ rng).enemies, e2.id ≠ e.id)
    ∧ (∀ e ∈ (spawnPhase Δ g).enemies, now < e.stunnedUntil →
        ∃ e2 ∈ (g.update now Δ rng).enemies, e2.id = e.id) := by
  have hpass := enemyPass_eq_filter g.path g.wave now Δ ((spawnPhase Δ g).enemies) hnd
  have hup : ((g.update now Δ rng).enemies).map (fun e => e.id)
      = ((enemyPass g.path g.wave now Δ ((spawnPhase Δ g).enemies)).1).map
          (fun e => e.id) := by
    unfold CastleGame.update
    rw [if_neg (fun hc => hc hg)]
    rw [endCheckPhase_enemies, waveCompletePhase_enemies, troopPhase_enemy_ids,
      healerPhase_enemy_ids, projectilePhase_enemy_ids, towerPhase_enemy_ids]
    unfold enemyPhase
    rw [spawnPhase_path, spawnPhase_wave]
  refine ⟨hpass, ?_, ?_⟩
  · intro e he hstun hdead hbd e2 he2 heq2
    have hmem2 : e2.id ∈ ((g.update now Δ rng).enemies).map (fun e => e.id) :=
      List.mem_map_of_mem _ he2
    rw [hup, hpass] at hmem2
    rcases List.mem_map.mp hmem2 with ⟨e3, he3, hid3⟩
    rcases List.mem_map.mp he3 with ⟨s, hs, hs1⟩
    have hpred := List.of_mem_filter hs
    rcases List.mem_map.mp (List.mem_of_mem_filter hs) with ⟨e4, he4, hstep4⟩
    have hid4 : e3.id = e4.id := by
      rw [← hs1, ← hstep4, enemyStep_id]
    have heq4 : e4.id = e.id := by
      rw [← hid4, hid3, heq2]
    have he4e : e4 = e :=
      List.inj_on_of_nodup_map hnd he4 he heq4
    subst he4e
    have hmark := enemyStep_marked_of_dead g.path g.wave now Δ e4 hstun hdead hbd hΔ
    rw [hstep4] at hmark
    rw [hmark] at hpred
    simp at hpred
  · intro e he hstun
    have hstep := enemyStep_stunned g.path g.wave now Δ e hstun
    have hkept : e ∈ ((((spawnPhase Δ g).enemies).map (enemyStep g.path g.wave now Δ)).filter
        (fun s => !s.2.1)).map (fun s => s.1) := by
      refine List.mem_map.mpr ⟨(e, false, 0), ?_, rfl⟩
      refine List.mem_filter.mpr ⟨?_, rfl⟩
      rw [← hstep]
      exact List.mem_map_of_mem _ he
    have : e.id ∈ ((g.update now Δ rng).enemies).map (fun e => e.id) := by
      rw [hup, hpass]
      exact List.mem_map_of_mem _ hkept
    rcases List.mem_map.mp this with ⟨e2, he2, hid2⟩
    exact ⟨e2, he2, hid2⟩

/-- C3 witness: a non-stunned dead enemy is removed by the update; the
stunned dead enemy of `stunnedDeadGame` survives it. -/
theorem c3_enemy_sweep_witness :
    (∀ e2 ∈ (deadEnemyGame.update 0 16 rng0).enemies, e2.id ≠ 8)
    ∧ (∃ e2 ∈ (stunnedDeadGame.update 0 16 rng0).enemies, e2.id = 7) := by
  have h1 := c3_enemy_sweep deadEnemyGame 0 16 rng0 rfl (by norm_num) (by decide)
  have h2 := c3_enemy_sweep stunnedDeadGame 0 16 rng0 rfl (by norm_num) (by decide)
  exact ⟨h1.2.1 deadEnemy (by decide) (by decide) (by decide) (by decide),
    h2.2.2 stunnedDeadEnemy (by decide) (by decide)⟩

/-- C3 counterexample: the stunned enemy with health -5 is still in the
enemy list after a full update on a playing session — stunned enemies are
skipped by the pass, refuting "including enemies that are currently
stunned". -/
theorem c3_counterexample :
    stunnedDeadEnemy.health ≤ 0
    ∧ ((stunnedDeadGame.update 0 16 rng0).enemies.map (fun e => e.id)) = [7] := by
  constructor
  · decide
  · decide

end CD

namespace CD

/-!
Claim C4.
-/

/-- Invariant of the chain-target scan: the accumulator always holds the
strictly-nearest eligible enemy seen so far (eligible = id differing from
the current chain source), with the running bound starting at 100. -/
theorem chainScanFold_inv (lastT : Enemy) :
    ∀ (rem : List Enemy) (acc : Option Enemy × ℚ) (seen : List Enemy),
      (∀ t, acc.1 = some t → t ∈ seen ∧ t.id ≠ lastT.id
        ∧ acc.2 = fdist (fsub t.x lastT.x) (fsub t.y lastT.y) ∧ acc.2 < 100) →
      (acc.1 = none → acc.2 = 100) →
      (∀ e ∈ seen, e.id ≠ lastT.id →
        ¬ fdist (fsub e.x lastT.x) (fsub e.y lastT.y) < acc.2) →
      (∀ t, (rem.foldl (fun acc e =>
          if e.id = lastT.id then acc
          else
            let dist := fdist (fsub e.x lastT.x) (fsub e.y lastT.y)
            if dist < acc.2 then (some e, dist) else acc) acc).1 = some t →
        t ∈ seen ++ rem ∧ t.id ≠ lastT.id
        ∧ fdist (fsub t.x lastT.x) (fsub t.y lastT.y) < 100
        ∧ ∀ e ∈ seen ++ rem, e.id ≠ lastT.id →
            ¬ fdist (fsub e.x lastT.x) (fsub e.y lastT.y)
                < fdist (fsub t.x lastT.x) (fsub t.y lastT.y))
      ∧ ((rem.foldl (fun acc e =>
          if e.id = lastT.id then acc
          else
            let dist := fdist (fsub e.x lastT.x) (fsub e.y lastT.y)
            if dist < acc.2 then (some e, dist) else acc) acc).1 = none →
        ∀ e ∈ seen ++ rem, e.id ≠ lastT.id →
          ¬ fdist (fsub e.x lastT.x) (fsub e.y lastT.y) < 100)
  | [], acc, seen, hsome, hnone, hseen => by
    simp only [List.foldl_nil, List.append_nil]
    constructor
    · intro t ht
      obtain ⟨h1, h2, h3, h4⟩ := hsome t ht
      exact ⟨h1, h2, h3 ▸ h4, fun e he hne => h3 ▸ hseen e he hne⟩
    · intro hn e he hne
      have := hseen e he hne
      rwa [hnone hn] at this
  | e0 :: rem, acc, seen, hsome, hnone, hseen => by
    simp only [List.foldl_cons]
    have hb : acc.2 ≤ 100 := by
      cases h : acc.1 with
      | none => exact le_of_eq (hnone h)
      | some t => exact le_of_lt (hsome t h).2.2.2
    have key : ∀ (acc2 : Option Enemy × ℚ),
        acc2 = (if e0.id = lastT.id then acc
          else
            let dist := fdist (fsub e0.x lastT.x) (fsub e0.y lastT.y)
            if dist < acc.2 then (some e0, dist) else acc) →
        (∀ t, acc2.1 = some t → t ∈ seen ++ [e0] ∧ t.id ≠ lastT.id
          ∧ acc2.2 = fdist (fsub t.x lastT.x) (fsub t.y lastT.y) ∧ acc2.2 < 100)
        ∧ (acc2.1 = none → acc2.2 = 100)
        ∧ (∀ e ∈ seen ++ [e0], e.id ≠ lastT.id →
            ¬ fdist (fsub e.x lastT.x) (fsub e.y lastT.y) < acc2.2) := by
      intro acc2 hacc2
      by_cases h1 : e0.id = lastT.id
      · rw [if_pos h1] at hacc2
        subst hacc2
        refine ⟨fun t ht => ?_, hnone, fun e he hne => ?_⟩
        · obtain ⟨m1, m2, m3, m4⟩ := hsome t ht
          exact ⟨List.mem_append_left _ m1, m2, m3, m4⟩
        · rcases List.mem_append.mp he with he | he
          · exact hseen e he hne
          · rw [List.mem_singleton.mp he] at hne
            exact absurd h1 hne
      · rw [if_neg h1] at hacc2
        dsimp only at hacc2
        by_cases h2 : fdist (fsub e0.x lastT.x) (fsub e0.y lastT.y) < acc.2
        · rw [if_pos h2] at hacc2
          subst hacc2
          refine ⟨fun t ht => ?_, fun hn => Option.noConfusion hn, fun e he hne => ?_⟩
          · injection ht with ht
            subst ht
            exact ⟨List.mem_append_right _ (List.mem_singleton_self _), h1, rfl,
              lt_of_lt_of_le h2 hb⟩
          · rcases List.mem_append.mp he with he | he
            · intro hlt
              exact hseen e he hne (lt_trans hlt h2)
            · rw [List.mem_singleton.mp he]
              exact lt_irrefl _
        · rw [if_neg h2] at hacc2
          subst hacc2
          refine ⟨fun t ht => ?_, hnone, fun e he hne => ?_⟩
          · obtain ⟨m1, m2, m3, m4⟩ := hsome t ht
            exact ⟨List.mem_append_left _ m1, m2, m3, m4⟩
          · rcases List.mem_append.mp he with he | he
            · exact hseen e he hne
            · rw [List.mem_singleton.mp he]
              exact h2
    have hres := chainScanFold_inv lastT rem _ (seen ++ [e0])
      (key _ rfl).1 (key _ rfl).2.1 (key _ rfl).2.2
    simpa using hres

/-- The chain-target scan: a returned enemy is an eligible list member
strictly within 100 of the chain source with no strictly closer eligible
enemy, where eligibility excludes only the id of the current source; a
`none` result means no eligible enemy lies strictly within 100. -/
theorem chainScan_spec (es : List Enemy) (lastT : Enemy) :
    (∀ t, chainScan es lastT = some t →
      t ∈ es ∧ t.id ≠ lastT.id
      ∧ fdist (fsub t.x lastT.x) (fsub t.y lastT.y) < 100
      ∧ ∀ e ∈ es, e.id ≠ lastT.id →
          ¬ fdist (fsub e.x lastT.x) (fsub e.y lastT.y)
              < fdist (fsub t.x lastT.x) (fsub t.y lastT.y))
    ∧ (chainScan es lastT = none →
        ∀ e ∈ es, e.id ≠ lastT.id →
          ¬ fdist (fsub e.x lastT.x) (fsub e.y lastT.y) < 100) := by
  have h := chainScanFold_inv lastT es (none, (100 : ℚ)) []
    (by intro t ht; cases ht) (fun _ => rfl) (by intro e he; cases he)
  unfold chainScan
  simpa using h

/-- C4 (amended): a chain jump selects the nearest enemy strictly within
radius 100 of the current chain target, excluding only that current
target itself (earlier chain members, including the original target,
remain eligible); every secondary projectile carries exactly 70% of the
original damage; the chain continues from the enemy found; and once a
jump finds no eligible target the remaining iterations spawn nothing (the
loop has no break, but its state no longer changes). -/
theorem c4_chain_jumps (ownerId : String) (dmg : ℚ) (es : List Enemy) :
    (∀ t, ∀ lastT, chainScan es lastT = some t →
      t ∈ es ∧ t.id ≠ lastT.id
      ∧ fdist (fsub t.x lastT.x) (fsub t.y lastT.y) < 100
      ∧ ∀ e ∈ es, e.id ≠ lastT.id →
          ¬ fdist (fsub e.x lastT.x) (fsub e.y lastT.y)
              < fdist (fsub t.x lastT.x) (fsub t.y lastT.y))
    ∧ (∀ n lastT nid, (chainLoop ownerId dmg es n lastT nid).1.length ≤ n)
    ∧ (∀ n lastT nid, ∀ pr ∈ (chainLoop ownerId dmg es n lastT nid).1,
        pr.damage = fmul dmg f07 ∧ pr.type = "chain" ∧ pr.ownerId = ownerId)
    ∧ (∀ n lastT nid, chainScan es lastT = none →
        (chainLoop ownerId dmg es n lastT nid).1 = [])
    ∧ (∀ n lastT nid ct, chainScan es lastT = some ct →
        (chainLoop ownerId dmg es (n + 1) lastT nid).1
          = { id := nid, x := lastT.x, y := lastT.y, targetId := ct.id,
              damage := fmul dmg f07, speed := 12, type := "chain",
              ownerId := ownerId, color := "#9932CC" }
            :: (chainLoop ownerId dmg es n ct (nid + 1)).1) := by
  refine ⟨fun t lastT h => (chainScan_spec es lastT).1 t h, ?_, ?_, ?_, ?_⟩
  · intro n
    induction n with
    | zero => intro lastT nid; simp [chainLoop]
    | succ m ih =>
      intro lastT nid
      unfold chainLoop
      split
      · exact le_trans (ih lastT nid) (Nat.le_succ m)
      · simpa using Nat.succ_le_succ (ih _ _)
  · intro n
    induction n with
    | zero => intro lastT nid pr hpr; simp [chainLoop] at hpr
    | succ m ih =>
      intro lastT nid pr hpr
      unfold chainLoop at hpr
      rcases hch : chainScan es lastT with _ | ct
      · rw [hch] at hpr
        exact ih lastT nid pr hpr
      · rw [hch] at hpr
        dsimp only at hpr
        rcases List.mem_cons.mp hpr with h | h
        · subst h
          exact ⟨rfl, rfl, rfl⟩
        · exact ih ct (nid + 1) pr h
  · intro n
    induction n with
    | zero => intro lastT nid _; simp [chainLoop]
    | succ m ih =>
      intro lastT nid hch
      unfold chainLoop
      rw [hch]
      exact ih lastT nid hch
  · intro n lastT nid ct hch
    simp only [chainLoop]
    rw [hch]

/-- C4 witness: in the two-enemy scenario the scan from enemy B (id 12)
returns enemy A (id 11) at distance 60; a 2-jump loop produces at most 2
projectiles, each at 70% damage; and a scan with no eligible enemy stops
the chain. -/
theorem c4_chain_jumps_witness :
    (chainEnemyA ∈ chainGame.enemies ∧ chainEnemyA.id ≠ chainEnemyB.id
      ∧ fdist (fsub chainEnemyA.x chainEnemyB.x) (fsub chainEnemyA.y chainEnemyB.y) < 100
      ∧ ∀ e ∈ chainGame.enemies, e.id ≠ chainEnemyB.id →
          ¬ fdist (fsub e.x chainEnemyB.x) (fsub e.y chainEnemyB.y)
              < fdist (fsub chainEnemyA.x chainEnemyB.x) (fsub chainEnemyA.y chainEnemyB.y))
    ∧ (chainLoop "p1" 30 chainGame.enemies 2 chainEnemyA 5).1.length ≤ 2
    ∧ (chainLoop "p1" 30 [] 2 chainEnemyA 5).1 = [] := by
  have h := c4_chain_jumps "p1" 30 chainGame.enemies
  have h2 := c4_chain_jumps "p1" 30 []
  exact ⟨h.1 chainEnemyA chainEnemyB (by decide), h.2.1 2 chainEnemyA 5,
    h2.2.2.2.1 2 chainEnemyA 5 (by decide)⟩

/-- C4 counterexample: the wizard chain in `chainGame` fires the main
projectile at enemy 11, a first jump to enemy 12, and a second jump back
to enemy 11 — the original target, already touched by this chain — so a
jump does not exclude earlier chain members, refuting the claim.  The
secondary projectiles carry 21 = 70% of the 30 main damage. -/
theorem c4_counterexample :
    ((chainGame.update 10000 16 rng0).projectiles.map (fun p => p.targetId)) = [11, 12, 11]
    ∧ ((chainGame.update 10000 16 rng0).projectiles.map (fun p => p.damage)) = [30, 21, 21]
    ∧ chainEnemyA.id = 11 := by
  refine ⟨by decide, by decide, rfl⟩

end CD

namespace CD

/-!
Claim C10.
-/

/-- C10 (amended): a projectile impact whose target's post-impact health
is ≤ 0 credits the rostered owner the kill gold
`int(reward * killBonusMultiplier)` — the binary64 product truncated,
which can exceed the claim's `⌊reward * killBonusMultiplier⌋` (see the
counterexample) — one kill, and score equal to the reward, with no check
that the target was alive before the impact; and,
concretely, one already-stunned enemy at health 4 hit by two 10-damage
projectiles in a single update is credited as two kills (gold 200 → 220,
score 20) while the enemy, protected from the sweep by its stun, stays
in the list at health -16. -/
theorem c10_kill_credit (rng : ℕ → ℚ) (acc : ProjAcc) (p : Projectile)
    (ti : ℕ) (target : Enemy) (owner : GamePlayer)
    (hfind : acc.enemies.enum.find? (fun ie => ie.2.id = p.targetId) = some (ti, target))
    (hdist : fdist (fsub target.x p.x) (fsub target.y p.y) < fmul p.speed 2)
    (hdead : fsub target.health p.damage ≤ 0)
    (howner : playersGet acc.players p.ownerId = some owner) :
    ((projStep rng acc p).players
      = playersUpdate
          (playersUpdate acc.players p.ownerId (fun ow =>
            { ow with damageDealt := fadd ow.damageDealt p.damage }))
          p.ownerId (fun ow =>
            { ow with
              gold := ow.gold + pyInt (fmul (target.reward : ℚ) ow.stats.killBonusMultiplier),
              enemiesKilled := ow.enemiesKilled + 1,
              score := ow.score + target.reward })
      ∧ (projStep rng acc p).marked = acc.marked ++ [p])
    ∧ (((doubleCreditGame.update 0 16 rng0).players.map
          (fun q => (q.gold, q.enemiesKilled, q.score))) = [(220, 2, 20)]
      ∧ ((doubleCreditGame.update 0 16 rng0).enemies.map (fun e => (e.id, e.health)))
          = [(5, -16)]
      ∧ (doubleCreditGame.update 0 16 rng0).projectiles = []) := by
  constructor
  · unfold projStep
    rw [hfind]
    dsimp only
    rw [if_pos hdist]
    have hpres : (playersGet acc.players p.ownerId).isSome = true := by
      rw [howner]
      rfl
    rw [if_pos ⟨hdead, hpres⟩]
    constructor
    · repeat' split
      all_goals rfl
    · repeat' split
      all_goals rfl
  · exact ⟨by decide, by decide, by decide⟩

/-- C10 witness: the impact lemma applied to the first projectile of the
double-credit scenario (target already at distance 0, post-impact health
-6, owner present). -/
theorem c10_kill_credit_witness :
    (projStep rng0 c10acc (hitProj 21)).players
      = playersUpdate
          (playersUpdate c10acc.players (hitProj 21).ownerId (fun ow =>
            { ow with damageDealt := fadd ow.damageDealt (hitProj 21).damage }))
          (hitProj 21).ownerId (fun ow =>
            { ow with
              gold := ow.gold
                + pyInt (fmul (stunnedLowEnemy.reward : ℚ) ow.stats.killBonusMultiplier),
              enemiesKilled := ow.enemiesKilled + 1,
              score := ow.score + stunnedLowEnemy.reward }) := by
  have h := c10_kill_credit rng0 c10acc (hitProj 21) 0 stunnedLowEnemy
    (mkGamePlayer "p1" plainProfile) (by decide) (by decide) (by decide) (by decide)
  exact h.1.1

/-- C10 counterexample: a player with three kill-bonus perk levels
(stat `1.0 + 3*0.05`, the double just below 1.15) killing a reward-20
enemy is credited `int(20 * stat)`: the binary64 product ties to exactly
23.0 and the code credits 23 gold (200 → 223), while the claim's
`⌊reward * killBonusMultiplier⌋ = ⌊22.999...⌋` is 22. -/
theorem c10_counterexample :
    ((kbGame.update 0 16 rng0).players.map
        (fun q => (q.gold, q.enemiesKilled, q.score))) = [(223, 1, 20)]
    ∧ pyInt (fmul (rewardEnemy.reward : ℚ) kb115) = 23
    ∧ (200 : ℤ) + ⌊(rewardEnemy.reward : ℚ) * kb115⌋ = 222 := by
  refine ⟨by decide, by decide, by decide⟩

end CD
